import Mathlib

/-!
Verification of the weekly-preview-assistant A2A protocol core.

The Python source manipulates duck-typed JSON dicts.  We embed those values
as the inductive type `JVal` and give the Python operations used by the
source (`dict.get`, `d[k]`, `in`, truthiness, `str()`) as Lean functions.
Operations that can raise a Python exception are modelled in
`Except PyErr`.  Durations, times and identifiers are embedded from the
concrete parsing code in `src/agents/calendar/agent.py`; the validator,
client, discovery, server and orchestrator modules are embedded from
`src/a2a/validator.py`, `src/a2a/client.py`, `src/a2a/discovery.py`,
`src/agents/calendar/server.py` and `src/agents/orchestrator/agent.py`.
External effects (HTTP responses, the Google collaborator, the clock, the
id generator, the filesystem) are supplied as explicit oracle parameters.
-/

namespace WeeklyPreview

/-- JSON-like values: the duck-typed payloads the Python source passes around. -/
inductive JVal where
  | null
  | bool (b : Bool)
  | num (n : Int)
  | str (s : String)
  | arr (items : List JVal)
  | obj (fields : List (String × JVal))

/-- Python exceptions that the embedded fragments can raise. -/
inductive PyErr where
  | attributeError
  | typeError
  | keyError (k : String)
  | indexError
deriving DecidableEq

/-- First binding of a key in an association list (Python dicts we build keep keys unique). -/
def assocLookup (fields : List (String × JVal)) (k : String) : Option JVal :=
  match fields with
  | [] => none
  | (k', v) :: rest => if k' = k then some v else assocLookup rest k

/-- `d.get(k)` on a value known to be a dict; `none` on a non-dict or missing key. -/
def JVal.lookup (v : JVal) (k : String) : Option JVal :=
  match v with
  | .obj fields => assocLookup fields k
  | _ => none

/-- Python truthiness of a JSON value. -/
def truthy : JVal → Bool
  | .null => false
  | .bool b => b
  | .num n => n != 0
  | .str s => !s.isEmpty
  | .arr items => !items.isEmpty
  | .obj fields => !fields.isEmpty

/-- `v.get(k)`: `AttributeError` when `v` is not a dict. -/
def pyGet (v : JVal) (k : String) : Except PyErr (Option JVal) :=
  match v with
  | .obj fields => .ok (assocLookup fields k)
  | _ => .error .attributeError

/-- `v.get(k, d)`. -/
def pyGetD (v : JVal) (k : String) (d : JVal) : Except PyErr JVal := do
  pure ((← pyGet v k).getD d)

/-- `v[k]` with a string key: `KeyError` on a dict missing `k`, `TypeError` otherwise. -/
def pyIndex (v : JVal) (k : String) : Except PyErr JVal :=
  match v with
  | .obj fields =>
    match assocLookup fields k with
    | some x => .ok x
    | none => .error (.keyError k)
  | _ => .error .typeError

/-- Is `needle` an infix of `hay` (Python `sub in str`)? -/
def listInfix (needle : List Char) : List Char → Bool
  | [] => needle.isEmpty
  | c :: t => needle.isPrefixOf (c :: t) || listInfix needle t

/-- Python substring containment `needle in hay`. -/
def strIn (needle hay : String) : Bool := listInfix needle.data hay.data

mutual
/-- Python `==` on JSON values (order-sensitive on dicts, which the source
never compares; used only for `in` on lists). -/
def jvalBeq : JVal → JVal → Bool
  | .null, .null => true
  | .bool a, .bool b => a == b
  | .num a, .num b => a == b
  | .str a, .str b => a == b
  | .arr a, .arr b => jvalBeqList a b
  | .obj a, .obj b => jvalBeqObj a b
  | _, _ => false
def jvalBeqList : List JVal → List JVal → Bool
  | [], [] => true
  | a :: xs, b :: ys => jvalBeq a b && jvalBeqList xs ys
  | _, _ => false
def jvalBeqObj : List (String × JVal) → List (String × JVal) → Bool
  | [], [] => true
  | (k, a) :: xs, (l, b) :: ys => k == l && jvalBeq a b && jvalBeqObj xs ys
  | _, _ => false
end

/-- Python `needle in v` for a string needle: key membership for dicts,
substring for strings, element membership for lists, `TypeError` otherwise. -/
def pyIn (needle : String) (v : JVal) : Except PyErr Bool :=
  match v with
  | .obj fields => .ok (assocLookup fields needle).isSome
  | .str s => .ok (strIn needle s)
  | .arr items => .ok (items.any (fun x => jvalBeq x (.str needle)))
  | _ => .error .typeError

mutual
/-- Python `repr()` of a JSON value (string escaping inside is elided). -/
def pyRepr : JVal → String
  | .null => "None"
  | .bool true => "True"
  | .bool false => "False"
  | .num n => toString n
  | .str s => "'" ++ s ++ "'"
  | .arr items => "[" ++ pyReprList items ++ "]"
  | .obj fields => "\x7b" ++ pyReprFields fields ++ "\x7d"
def pyReprList : List JVal → String
  | [] => ""
  | [x] => pyRepr x
  | x :: rest => pyRepr x ++ ", " ++ pyReprList rest
def pyReprFields : List (String × JVal) → String
  | [] => ""
  | [(k, v)] => "'" ++ k ++ "': " ++ pyRepr v
  | (k, v) :: rest => "'" ++ k ++ "': " ++ pyRepr v ++ ", " ++ pyReprFields rest
end

/-- Python `str()` of a JSON value. -/
def pyStr : JVal → String
  | .str s => s
  | v => pyRepr v

/-! ## src/a2a/validator.py

Each `validate_*` function returns the `(is_valid, error_description)` pair;
the `Except` layer records where the Python code could raise instead of
returning.  Python renders a `set` in an unspecified order; the embedded
error strings fix the enum-definition order. -/

/-- `validate_part` (validator.py lines 18-45). -/
def validate_part (part : JVal) : Except PyErr (Bool × String) :=
  match part with
  | .obj _ =>
    match (part.lookup "type").getD .null with
    | .str "text" =>
      if (part.lookup "text").isNone then .ok (false, "TextPart must include 'text' field.")
      else .ok (true, "")
    | .str "data" =>
      if (part.lookup "data").isNone then .ok (false, "DataPart must include 'data' field.")
      else .ok (true, "")
    | .str "file" =>
      if (part.lookup "url").isNone && (part.lookup "raw").isNone then
        .ok (false, "FilePart must include 'url' or 'raw' field.")
      else .ok (true, "")
    | other => .ok (false, "Unknown part type: " ++ pyStr other)
  | _ => .ok (false, "Part must be a dict.")

/-- The `for i, part in enumerate(parts)` loop of `validate_message`. -/
def validateParts : List JVal → Nat → Except PyErr (Bool × String)
  | [], _ => .ok (true, "")
  | p :: rest, i => do
    let (ok, err) ← validate_part p
    if !ok then .ok (false, "parts[" ++ toString i ++ "]: " ++ err)
    else validateParts rest (i + 1)

/-- `validate_message` (validator.py lines 53-84). -/
def validate_message (message : JVal) : Except PyErr (Bool × String) :=
  match message with
  | .obj _ =>
    if (message.lookup "message_id").isNone then .ok (false, "Message must include 'message_id'.")
    else
      let role := (message.lookup "role").getD .null
      let roleOk := match role with
        | .str "user" => true
        | .str "agent" => true
        | _ => false
      if !roleOk then
        .ok (false, "Message 'role' must be one of \x7b'user', 'agent'\x7d, got: " ++ pyStr role)
      else
        match (message.lookup "parts").getD .null with
        | .arr parts =>
          if parts.isEmpty then .ok (false, "Message 'parts' must be a non-empty list.")
          else validateParts parts 0
        | _ => .ok (false, "Message 'parts' must be a non-empty list.")
  | _ => .ok (false, "Message must be a dict.")

/-- The eight `TaskState` enum values, in definition order. -/
def taskStates : List String :=
  ["submitted", "working", "completed", "failed", "canceled",
   "input_required", "rejected", "auth_required"]

/-- `validate_task_status` (validator.py lines 92-114). -/
def validate_task_status (status : JVal) : Except PyErr (Bool × String) :=
  match status with
  | .obj _ =>
    let state := (status.lookup "state").getD .null
    let stateOk := match state with
      | .str s => taskStates.contains s
      | _ => false
    if !stateOk then
      .ok (false,
        "TaskStatus 'state' must be one of \x7b'submitted', 'working', 'completed', 'failed', 'canceled', 'input_required', 'rejected', 'auth_required'\x7d, got: "
        ++ pyStr state)
    else if (status.lookup "timestamp").isNone then
      .ok (false, "TaskStatus must include 'timestamp'.")
    else .ok (true, "")
  | _ => .ok (false, "TaskStatus must be a dict.")

/-- `validate_task` (validator.py lines 122-148). -/
def validate_task (task : JVal) : Except PyErr (Bool × String) :=
  match task with
  | .obj _ =>
    if (task.lookup "id").isNone then .ok (false, "Task must include 'id'.")
    else if (task.lookup "context_id").isNone then .ok (false, "Task must include 'context_id'.")
    else
      let status := (task.lookup "status").getD .null
      if !truthy status then .ok (false, "Task must include 'status'.")
      else do
        let (ok, err) ← validate_task_status status
        if !ok then .ok (false, "Task status: " ++ err)
        else .ok (true, "")
  | _ => .ok (false, "Task must be a dict.")

/-- `validate_send_message_request` (validator.py lines 156-174). -/
def validate_send_message_request (request : JVal) : Except PyErr (Bool × String) :=
  match request with
  | .obj _ =>
    let msg := (request.lookup "message").getD .null
    if !truthy msg then .ok (false, "SendMessageRequest must include 'message'.")
    else validate_message msg
  | _ => .ok (false, "SendMessageRequest must be a dict.")

/-- The `for iface in interfaces` loop of `validate_agent_card`: `iface.get`
raises `AttributeError` when an element is not a dict. -/
def validateInterfaces : List JVal → Nat → Except PyErr (Bool × String)
  | [], _ => .ok (true, "")
  | iface :: rest, i => do
    let u ← pyGet iface "url"
    if !truthy (u.getD .null) then
      .ok (false, "supported_interfaces[" ++ toString i ++ "] must include 'url'.")
    else do
      let pb ← pyGet iface "protocol_binding"
      if !truthy (pb.getD .null) then
        .ok (false, "supported_interfaces[" ++ toString i ++ "] must include 'protocol_binding'.")
      else do
        let pv ← pyGet iface "protocol_version"
        if !truthy (pv.getD .null) then
          .ok (false, "supported_interfaces[" ++ toString i ++ "] must include 'protocol_version'.")
        else validateInterfaces rest (i + 1)

/-- The `for skill in skills` loop of `validate_agent_card`: `field not in
skill` raises `TypeError` when an element is not a container. -/
def validateSkills : List JVal → Nat → Except PyErr (Bool × String)
  | [], _ => .ok (true, "")
  | skill :: rest, i => do
    if !(← pyIn "id" skill) then .ok (false, "skills[" ++ toString i ++ "] must include 'id'.")
    else if !(← pyIn "name" skill) then .ok (false, "skills[" ++ toString i ++ "] must include 'name'.")
    else if !(← pyIn "description" skill) then .ok (false, "skills[" ++ toString i ++ "] must include 'description'.")
    else if !(← pyIn "tags" skill) then .ok (false, "skills[" ++ toString i ++ "] must include 'tags'.")
    else validateSkills rest (i + 1)

/-- `validate_agent_card` (validator.py lines 182-218). -/
def validate_agent_card (card : JVal) : Except PyErr (Bool × String) :=
  match card with
  | .obj _ =>
    if !truthy ((card.lookup "name").getD .null) then .ok (false, "AgentCard must include 'name'.")
    else if !truthy ((card.lookup "description").getD .null) then .ok (false, "AgentCard must include 'description'.")
    else if !truthy ((card.lookup "version").getD .null) then .ok (false, "AgentCard must include 'version'.")
    else
      match (card.lookup "supported_interfaces").getD .null with
      | .arr interfaces =>
        if interfaces.isEmpty then
          .ok (false, "AgentCard must include non-empty 'supported_interfaces'.")
        else do
          let (ok, err) ← validateInterfaces interfaces 0
          if !ok then .ok (false, err)
          else
            match (card.lookup "skills").getD .null with
            | .arr skills => validateSkills skills 0
            | _ => .ok (false, "AgentCard must include 'skills' list.")
      | _ => .ok (false, "AgentCard must include non-empty 'supported_interfaces'.")
  | _ => .ok (false, "AgentCard must be a dict.")

/-! ## src/a2a/client.py -/

/-- What one HTTP POST attempt does: `requests.Timeout`, some other
`requests.RequestException` (with its `str(e)` text), or a 2xx JSON body. -/
inductive HttpOutcome where
  | timeout
  | failure (msg : String)
  | success (resp : JVal)

/-- An `{error: {code, message}}` dict as the client builds them. -/
def errorDict (code msg : String) : JVal :=
  .obj [("error", .obj [("code", .str code), ("message", .str msg)])]

/-- The `for attempt in range(max_retries + 1)` loop of `client.send_message`
(client.py lines 58-98), from attempt index `attempt` with `remaining`
iterations left.  Returns the response dict, the backoff sleeps performed
(seconds, in order) and the number of HTTP attempts issued. -/
def clientAttempts (http : Nat → HttpOutcome) (url : String) (maxRetries : Nat) :
    Nat → Nat → JVal × List Nat × Nat
  | _, 0 => (errorDict "RequestFailedError" "Unexpected retry exhaustion", [], 0)
  | attempt, remaining + 1 =>
    match http attempt with
    | .success resp => (resp, [], 1)
    | .timeout =>
      if attempt < maxRetries then
        let (r, sleeps, tries) := clientAttempts http url maxRetries (attempt + 1) remaining
        (r, 2 ^ (attempt + 1) :: sleeps, tries + 1)
      else (errorDict "TimeoutError" ("Timeout calling " ++ url), [], 1)
    | .failure msg =>
      if attempt < maxRetries then
        let (r, sleeps, tries) := clientAttempts http url maxRetries (attempt + 1) remaining
        (r, 2 ^ (attempt + 1) :: sleeps, tries + 1)
      else (errorDict "RequestFailedError" msg, [], 1)

/-- `client.send_message` (client.py lines 27-98), with the HTTP layer as the
oracle `http` giving each attempt's outcome. -/
def client_send_message (http : Nat → HttpOutcome) (agent_url : String)
    (request : JVal) (maxRetries : Nat) : Except PyErr (JVal × List Nat × Nat) := do
  let (isValid, errorDesc) ← validate_send_message_request request
  if !isValid then
    pure (errorDict "InvalidMessageError" errorDesc, [], 0)
  else
    pure (clientAttempts http (agent_url ++ "/message/send") maxRetries 0 (maxRetries + 1))

/-! ## src/a2a/discovery.py -/

def AGENT_CARD_PATH : String := "/.well-known/agent.json"

/-- `fetch_agent_card` (discovery.py lines 28-54).  `env` maps a URL to the
JSON body served there; `none` stands for any `requests.RequestException`
(unreachable, non-2xx, unparseable body).  Only those exceptions are caught,
so an exception raised by `validate_agent_card` propagates. -/
def fetch_agent_card (env : String → Option JVal) (base_url : String) :
    Except PyErr (Option JVal) :=
  match env (base_url ++ AGENT_CARD_PATH) with
  | none => .ok none
  | some card => do
    let (isValid, _err) ← validate_agent_card card
    if !isValid then pure none
    else pure (some card)

/-- `discover_agents` (discovery.py lines 57-71). -/
def discover_agents (env : String → Option JVal) : List String → Except PyErr (List JVal)
  | [] => .ok []
  | url :: rest => do
    let card ← fetch_agent_card env url
    let cards ← discover_agents env rest
    match card with
    | some c => if truthy c then pure (c :: cards) else pure cards
    | none => pure cards

/-! ## src/a2a/protocol.py constructors used by the calendar server

`generate_id` and `now_iso` are external (randomness, the clock): the n-th
call to either draws index n of the supplies in `GenEnv`, threading one
shared counter. -/

structure GenEnv where
  ids : Nat → String
  ts : Nat → String

/-- `text_part(text)` (protocol.py lines 75-88); the servers never pass
metadata. -/
def text_part (text : String) : JVal :=
  .obj [("type", .str "text"), ("text", .str text)]

/-- `data_part(data)` with the default media type (protocol.py lines 91-109). -/
def data_part (data : JVal) : JVal :=
  .obj [("type", .str "data"), ("data", data), ("media_type", .str "application/json")]

/-- `create_message(role, parts)` (protocol.py lines 117-147); the optional
arguments are absent at every embedded call site. -/
def create_message (g : GenEnv) (n : Nat) (role : String) (parts : List JVal) : JVal × Nat :=
  (.obj [("message_id", .str (g.ids n)), ("role", .str role), ("parts", .arr parts)], n + 1)

/-- `create_task_status(state, message)` (protocol.py lines 155-173). -/
def create_task_status (g : GenEnv) (n : Nat) (state : String) (message : Option JVal) :
    JVal × Nat :=
  let base := [("state", JVal.str state), ("timestamp", JVal.str (g.ts n))]
  let fields := match message with
    | some m => if truthy m then base ++ [("message", m)] else base
    | none => base
  (.obj fields, n + 1)

/-- `create_task(context_id=cid)` (protocol.py lines 181-208): `task_id` is
`None` at the call site, so an id is always drawn; `context_id or
generate_id()` draws one only when `cid` is falsy or absent. -/
def create_task (g : GenEnv) (n : Nat) (cid : Option JVal) : JVal × Nat :=
  let tid := g.ids n
  let n := n + 1
  let (ctxVal, n) := match cid with
    | some v => if truthy v then (v, n) else (JVal.str (g.ids n), n + 1)
    | none => (JVal.str (g.ids n), n + 1)
  let (status, n) := create_task_status g n "submitted" none
  (.obj [("id", .str tid), ("context_id", ctxVal), ("status", status),
         ("artifacts", .arr []), ("history", .arr []), ("metadata", .obj [])], n)

/-- `create_artifact(parts, name, description)` (protocol.py lines 216-241). -/
def create_artifact (g : GenEnv) (n : Nat) (parts : List JVal) (name description : String) :
    JVal × Nat :=
  let base := [("artifact_id", JVal.str (g.ids n)), ("parts", JVal.arr parts)]
  let base := if name.isEmpty then base else base ++ [("name", JVal.str name)]
  let base := if description.isEmpty then base else base ++ [("description", JVal.str description)]
  (.obj base, n + 1)

/-! ## src/agents/calendar/server.py -/

/-- Python iteration `for x in v`: list elements, a string's characters, a
dict's keys; `TypeError` otherwise. -/
def pyIterate : JVal → Except PyErr (List JVal)
  | .arr items => .ok items
  | .str s => .ok (s.data.map (fun c => .str (String.mk [c])))
  | .obj fields => .ok (fields.map (fun kv => .str kv.1))
  | _ => .error .typeError

/-- `d[key] = v` on an association list: replace in place or append. -/
def dictSet (fields : List (String × JVal)) (key : String) (v : JVal) :
    List (String × JVal) :=
  match fields with
  | [] => [(key, v)]
  | (k, w) :: rest => if k = key then (k, v) :: rest else (k, w) :: dictSet rest key v

/-- `o[key] = v` on a dict value. -/
def jvalSet (o : JVal) (key : String) (v : JVal) : JVal :=
  match o with
  | .obj fields => .obj (dictSet fields key v)
  | other => other

/-- The in-memory task store `_tasks` (server.py line 41). -/
abbrev TaskStore := List (String × JVal)

/-- The scan inside `_extract_params` over the message's parts. -/
def extractFromParts : List JVal → Except PyErr (Option JVal)
  | [] => .ok none
  | part :: rest => do
    let t := (← pyGet part "type").getD .null
    let isData := match t with
      | .str s => s == "data"
      | _ => false
    if isData then do
      let d := (← pyGet part "data").getD .null
      match d with
      | .obj _ =>
        if (d.lookup "action").isSome && (d.lookup "parameters").isSome then
          pyIndex d "parameters"
        else extractFromParts rest
      | _ => extractFromParts rest
    else extractFromParts rest

/-- `_extract_params` (server.py lines 202-218). -/
def _extract_params (message : JVal) : Except PyErr (Option JVal) := do
  extractFromParts (← pyIterate (← pyGetD message "parts" (.arr [])))

/-- The result dict `CalendarAgent.fetch_week_events` returns (agent.py lines
73-78): the shape of the domain collaborator's output. -/
structure FetchResult where
  events : List JVal
  conflicts : List JVal
  total_events : Int
  busiest_day : String

def FetchResult.toJVal (r : FetchResult) : JVal :=
  .obj [("events", .arr r.events), ("conflicts", .arr r.conflicts),
        ("total_events", .num r.total_events), ("busiest_day", .str r.busiest_day)]

/-- The domain collaborator `_get_agent().fetch_week_events(start_date,
end_date, calendars)`: external Google-calendar I/O, supplied as an oracle;
`.error e` stands for a raised exception with text `e`. -/
abbrev Collab := JVal → JVal → JVal → Except String FetchResult

/-- The `str(e)` text of an exception raised by an embedded dict operation. -/
def pyErrStr : PyErr → String
  | .attributeError => "object has no attribute 'get'"
  | .typeError => "object is not subscriptable"
  | .keyError k => "'" ++ k ++ "'"
  | .indexError => "list index out of range"

/-- The `try` block of the send-message endpoint (server.py lines 146-169):
parameter extraction, the collaborator call, the artifact and the COMPLETED
status.  Returns the artifact and status (and the counter) or the text of
the exception the handler's `except` clause catches. -/
def runTry (g : GenEnv) (n : Nat) (collab : Collab) (params : JVal) :
    Except String (JVal × JVal × Nat) := do
  let sd ← (pyGetD params "start_date" (.str "")).mapError pyErrStr
  let ed ← (pyGetD params "end_date" (.str "")).mapError pyErrStr
  let cals ← (pyGetD params "calendars" (.arr [])).mapError pyErrStr
  let result ← collab sd ed cals
  let dsd ← (pyGet params "start_date").mapError pyErrStr
  let ded ← (pyGet params "end_date").mapError pyErrStr
  let desc := "Calendar events for " ++ pyStr (dsd.getD .null) ++ " to " ++ pyStr (ded.getD .null)
  let (artifact, n) := create_artifact g n [data_part result.toJVal] "calendar-events" desc
  let (doneMsg, n) := create_message g n "agent"
    [text_part ("Retrieved " ++ toString result.total_events ++ " events.")]
  let (status, n) := create_task_status g n "completed" (some doneMsg)
  pure (artifact, status, n)

/-- The key `task["id"]` under which the handler stores a task (always a
freshly drawn id string by construction). -/
def taskKey (task : JVal) : String :=
  match task.lookup "id" with
  | some (.str s) => s
  | _ => ""

/-- The `POST /message/send` handler of the calendar agent server (server.py
lines 97-181).  Returns the JSON body, the HTTP status code, the task store
after the request and the generator counter. -/
def server_send_message (g : GenEnv) (collab : Collab) (store : TaskStore) (n : Nat)
    (incoming : JVal) : Except PyErr (JVal × Nat × TaskStore × Nat) := do
  let (isValid, err) ← validate_send_message_request incoming
  if !isValid then
    pure (errorDict "InvalidMessageError" err, 400, store, n)
  else do
    let msg ← pyIndex incoming "message"
    let cid ← pyGet msg "context_id"
    let (task, n) := create_task g n cid
    let task := jvalSet task "history" (.arr [msg])
    let tid := taskKey task
    let store := dictSet store tid task
    match ← _extract_params msg with
    | none =>
      let (failMsg, n) := create_message g n "agent"
        [text_part "No action parameters found in message."]
      let (st, n) := create_task_status g n "failed" (some failMsg)
      let task := jvalSet task "status" st
      let store := dictSet store tid task
      pure (.obj [("task", task)], 200, store, n)
    | some params =>
      let (workMsg, n) := create_message g n "agent"
        [text_part "Fetching calendar events..."]
      let (st, n) := create_task_status g n "working" (some workMsg)
      let task := jvalSet task "status" st
      match runTry g n collab params with
      | .ok (artifact, status, n) =>
        let task := jvalSet task "artifacts" (.arr [artifact])
        let task := jvalSet task "status" status
        let store := dictSet store tid task
        pure (.obj [("task", task)], 200, store, n)
      | .error e =>
        let (failMsg, n) := create_message g n "agent" [text_part ("Error: " ++ e)]
        let (st, n) := create_task_status g n "failed" (some failMsg)
        let task := jvalSet task "status" st
        let store := dictSet store tid task
        pure (.obj [("task", task)], 200, store, n)

/-- The `GET /tasks/<task_id>` handler (server.py lines 184-194); the store
in the result shows the handler leaves `_tasks` untouched. -/
def server_get_task (store : TaskStore) (task_id : String) : (JVal × Nat) × TaskStore :=
  match assocLookup store task_id with
  | some task => ((task, 200), store)
  | none =>
    ((errorDict "TaskNotFoundError" ("Task " ++ task_id ++ " not found"), 404), store)

/-! ## src/agents/orchestrator/agent.py -/

/-- `len(v)`: `TypeError` on values without a length. -/
def pyLen : JVal → Except PyErr Nat
  | .arr items => .ok items.length
  | .str s => .ok s.length
  | .obj fields => .ok fields.length
  | _ => .error .typeError

/-- The skill map `OrchestratorAgent.discover` builds: a Python dict whose
keys are whatever `skill["id"]` held. -/
abbrev SkillMap := List (JVal × JVal)

/-- Python `==` on dict keys (hashable values); `True == 1` and `False == 0`
as in Python. -/
def pyKeyEq (a b : JVal) : Bool :=
  match a, b with
  | .bool x, .num m => (if x then 1 else 0 : Int) == m
  | .num m, .bool x => (if x then 1 else 0 : Int) == m
  | _, _ => jvalBeq a b

def skillMapPut (m : SkillMap) (k v : JVal) : SkillMap :=
  match m with
  | [] => [(k, v)]
  | (k', w) :: rest => if pyKeyEq k' k then (k', v) :: rest else (k', w) :: skillMapPut rest k v

/-- `skill_map[k] = v`: `TypeError` on an unhashable key. -/
def skillMapSet (m : SkillMap) (k v : JVal) : Except PyErr SkillMap :=
  match k with
  | .arr _ => .error .typeError
  | .obj _ => .error .typeError
  | _ => .ok (skillMapPut m k v)

/-- `k in skill_map` for a string literal `k`. -/
def skillMapMem (m : SkillMap) (k : String) : Bool :=
  m.any (fun kv => pyKeyEq kv.1 (.str k))

/-- The `for skill in card.get("skills", [])` loop of `discover`
(orchestrator agent.py lines 70-71). -/
def buildSkillMapSkills (card : JVal) : List JVal → SkillMap → Except PyErr SkillMap
  | [], m => .ok m
  | skill :: rest, m => do
    let sid ← pyIndex skill "id"
    buildSkillMapSkills card rest (← skillMapSet m sid card)

/-- The `for card in cards` loop of `discover` (lines 69-71). -/
def buildSkillMap : List JVal → SkillMap → Except PyErr SkillMap
  | [], m => .ok m
  | card :: rest, m => do
    let skills ← pyIterate (← pyGetD card "skills" (.arr []))
    buildSkillMap rest (← buildSkillMapSkills card skills m)

/-- The skill-id → AgentCard map of `discover` (lines 68-73), from the cards
that discovery returned. -/
def discover_skill_map (cards : List JVal) : Except PyErr SkillMap :=
  buildSkillMap cards []

/-- `v[0]` with the int index 0: list/string indexing; a dict has no integer
keys in JSON, so `d[0]` is a `KeyError`. -/
def pyIndexZero (v : JVal) : Except PyErr JVal :=
  match v with
  | .arr [] => .error .indexError
  | .arr (x :: _) => .ok x
  | .str s =>
    match s.data with
    | [] => .error .indexError
    | c :: _ => .ok (.str (String.mk [c]))
  | .obj _ => .error (.keyError "0")
  | _ => .error .typeError

/-- The failed-task message extraction the orchestrator repeats (e.g. lines
194-195): `task.get("status", {}).get("message", {}).get("parts", [{}])`,
then `parts[0].get("text", "unknown error") if parts else "unknown error"`. -/
def taskFailText (task : JVal) : Except PyErr String := do
  let status ← pyGetD task "status" (.obj [])
  let message ← pyGetD status "message" (.obj [])
  let parts ← pyGetD message "parts" (.arr [.obj []])
  if truthy parts then do
    let first ← pyIndexZero parts
    let t ← pyGetD first "text" (.str "unknown error")
    pure (pyStr t)
  else pure "unknown error"

/-- The `for part in artifacts[0].get("parts", [])` scan returning the first
data part's payload (lines 203-207 / 324-328). -/
def findDataPart (label : String) : List JVal → Except PyErr JVal
  | [] => .ok (.obj [("error", .str (label ++ " artifact has no DataPart"))])
  | part :: rest => do
    match (← pyGet part "type").getD .null with
    | .str "data" =>
      if "data" = "data" then pyIndex part "data" else findDataPart label rest
    | _ => findDataPart label rest

/-- Response processing of `_fetch_calendar_events` / `_send_telegram`
(lines 186-207 and 307-328, identical up to the agent label), with the
transport response as the oracle. -/
def parse_task_data_response (label : String) (response : JVal) : Except PyErr JVal := do
  if ← pyIn "error" response then do
    let e ← pyIndex response "error"
    let m ← pyGetD e "message" (.str "unknown")
    pure (.obj [("error", .str (label ++ " failed: " ++ pyStr m))])
  else do
    let task ← pyGetD response "task" (.obj [])
    let status ← pyGetD task "status" (.obj [])
    let state := (← pyGet status "state").getD .null
    let isCompleted := match state with
      | .str s => s == "completed"
      | _ => false
    if !isCompleted then do
      let msgText ← taskFailText task
      pure (.obj [("error", .str (label ++ " task " ++ pyStr state ++ ": " ++ msgText))])
    else do
      let artifacts ← pyGetD task "artifacts" (.arr [])
      if !truthy artifacts then
        pure (.obj [("error", .str (label ++ " returned no artifacts"))])
      else do
        let first ← pyIndexZero artifacts
        findDataPart label (← pyIterate (← pyGetD first "parts" (.arr [])))

def parse_calendar_response : JVal → Except PyErr JVal :=
  parse_task_data_response "Calendar Agent"

def parse_telegram_response : JVal → Except PyErr JVal :=
  parse_task_data_response "Telegram Agent"

/-- `result.update(part["data"])`: merge a dict's fields; `TypeError` on a
non-mapping argument. -/
def pyDictUpdate (result : List (String × JVal)) (d : JVal) :
    Except PyErr (List (String × JVal)) :=
  match d with
  | .obj fields => .ok (fields.foldl (fun acc kv => dictSet acc kv.1 kv.2) result)
  | _ => .error .typeError

/-- The result-collection loop of `_format_preview` (lines 269-274). -/
def formatterCollect : List JVal → List (String × JVal) → Except PyErr (List (String × JVal))
  | [], result => .ok result
  | part :: rest, result => do
    match (← pyGet part "type").getD .null with
    | .str "text" => formatterCollect rest (dictSet result "formatted_summary" (← pyIndex part "text"))
    | .str "data" => formatterCollect rest (← pyDictUpdate result (← pyIndex part "data"))
    | _ => formatterCollect rest result

/-- Response processing of `_format_preview` (lines 252-279). -/
def parse_formatter_response (response : JVal) : Except PyErr JVal := do
  if ← pyIn "error" response then do
    let e ← pyIndex response "error"
    let m ← pyGetD e "message" (.str "unknown")
    pure (.obj [("error", .str ("Formatter Agent failed: " ++ pyStr m))])
  else do
    let task ← pyGetD response "task" (.obj [])
    let status ← pyGetD task "status" (.obj [])
    let state := (← pyGet status "state").getD .null
    let isCompleted := match state with
      | .str s => s == "completed"
      | _ => false
    if !isCompleted then do
      let msgText ← taskFailText task
      pure (.obj [("error", .str ("Formatter Agent task " ++ pyStr state ++ ": " ++ msgText))])
    else do
      let artifacts ← pyGetD task "artifacts" (.arr [])
      if !truthy artifacts then
        pure (.obj [("error", .str "Formatter Agent returned no artifacts")])
      else do
        let first ← pyIndexZero artifacts
        let result ← formatterCollect (← pyIterate (← pyGetD first "parts" (.arr []))) []
        if (assocLookup result "formatted_summary").isNone then
          pure (.obj [("error", .str "Formatter Agent artifact has no TextPart")])
        else pure (.obj result)

/-- `generate_weekly_preview`'s return value plus its externally visible
effects: whether a Telegram request was issued and whether the summary file
was written. -/
structure OrchOut where
  result : JVal
  telegramAttempted : Bool
  fileWritten : Bool

/-- `generate_weekly_preview` (orchestrator agent.py lines 75-151).
External effects are oracles: `cards` is what discovery returned, `calResp`,
`fmtResp` and `tgResp` are the transport responses of the three A2A calls,
`week` is `calculate_week_range`'s output (the clock) and `savedPath` is
the path `save_summary` returns (the filesystem). -/
def generate_weekly_preview (cards : List JVal) (calResp fmtResp tgResp : JVal)
    (week : String × String) (savedPath : String) : Except PyErr OrchOut := do
  let (start_date, end_date) := week
  let skill_map ← discover_skill_map cards
  if !skillMapMem skill_map "fetch_week_events" then
    pure ⟨.obj [("error", .str "Calendar Agent not available (fetch_week_events skill not found)")],
          false, false⟩
  else if !skillMapMem skill_map "format_weekly_preview" then
    pure ⟨.obj [("error", .str "Formatter Agent not available (format_weekly_preview skill not found)")],
          false, false⟩
  else do
    let calendar_result ← parse_calendar_response calResp
    if ← pyIn "error" calendar_result then
      pure ⟨calendar_result, false, false⟩
    else do
      let _events ← pyIndex calendar_result "events"
      let conflicts ← pyIndex calendar_result "conflicts"
      let _total ← pyIndex calendar_result "total_events"
      let _busiest ← pyIndex calendar_result "busiest_day"
      let _ ← pyLen conflicts
      let format_result ← parse_formatter_response fmtResp
      if ← pyIn "error" format_result then
        pure ⟨format_result, false, false⟩
      else do
        let summary ← pyIndex format_result "formatted_summary"
        let (telegram_sent, attempted) ←
          if skillMapMem skill_map "send_telegram_message" then do
            let telegram_result ← parse_telegram_response tgResp
            pure (!(← pyIn "error" telegram_result), true)
          else pure (false, false)
        pure ⟨.obj [("summary", summary), ("file_path", .str savedPath),
                    ("week_start", .str start_date), ("week_end", .str end_date),
                    ("total_events", _total), ("telegram_sent", .bool telegram_sent)],
              attempted, true⟩

/-! ## src/agents/calendar/agent.py

Events reaching `_detect_conflicts`, `_event_sort_key` and
`_find_busiest_day` carry the fixed key set `parse_event` produces (plus the
source label added in `fetch_week_events`); the fields below are the ones
those functions read (`attendees`/`location` are never read there). -/

structure Event where
  title : String
  date : String
  day : String
  time : String
  duration : String
  calendar_source : String
  is_all_day : Bool
deriving DecidableEq

/-- The whitespace class of `str.split()` / regex `\s` (ASCII range). -/
def pyIsSpace (c : Char) : Bool :=
  c == ' ' || c == '\t' || c == '\n' || c == '\r' || c == '\x0b' || c == '\x0c'

def digitVal (c : Char) : Nat := c.toNat - 48

/-- The candidate matches of strptime's `%I` directive, the regex
alternation `(1[0-2]|0[1-9]|[1-9])`, in backtracking order: each candidate
is the parsed hour with the remaining input. -/
def hourCands : List Char → List (Nat × List Char)
  | '1' :: c :: rest =>
    if c == '0' || c == '1' || c == '2' then [(10 + digitVal c, rest), (1, c :: rest)]
    else [(1, c :: rest)]
  | ['1'] => [(1, [])]
  | '0' :: c :: rest => if c.isDigit && c != '0' then [(digitVal c, rest)] else []
  | c :: rest => if c.isDigit && c != '0' && c != '1' then [(digitVal c, rest)] else []
  | [] => []

/-- strptime's `%M`: the regex `(5[0-9]|[0-4][0-9]|[0-9])` in backtracking
order. -/
def minuteCands : List Char → List (Nat × List Char)
  | c :: d :: rest =>
    if c.isDigit && d.isDigit && digitVal c ≤ 5 then
      [(10 * digitVal c + digitVal d, rest), (digitVal c, d :: rest)]
    else if c.isDigit then [(digitVal c, d :: rest)]
    else []
  | [c] => if c.isDigit then [(digitVal c, [])] else []
  | [] => []

def dropWs : List Char → List Char
  | [] => []
  | c :: rest => if pyIsSpace c then dropWs rest else c :: rest

/-- The `\s+` between `%M` and `%p`: at least one whitespace character. -/
def dropWs1 : List Char → Option (List Char)
  | [] => none
  | c :: rest => if pyIsSpace c then some (dropWs rest) else none

/-- strptime's `%p` with `re.IGNORECASE`, which must also end the input
("unconverted data remains" otherwise): `true` = PM. -/
def parseAmPm : List Char → Option Bool
  | [a, m] =>
    if m == 'm' || m == 'M' then
      if a == 'a' || a == 'A' then some false
      else if a == 'p' || a == 'P' then some true
      else none
    else none
  | _ => none

/-- `datetime.strptime(s, "%I:%M %p")`, as minutes since midnight;
`none` for the `ValueError` cases. -/
def parseTime12 (s : String) : Option Nat :=
  (hourCands s.data).findSome? fun hc =>
    match hc.2 with
    | ':' :: r2 =>
      (minuteCands r2).findSome? fun mc => do
        let r4 ← dropWs1 mc.2
        let pm ← parseAmPm r4
        let hour := if pm then (if hc.1 == 12 then 12 else hc.1 + 12)
                    else (if hc.1 == 12 then 0 else hc.1)
        some (hour * 60 + mc.1)
    | _ => none

def pyToLower (s : String) : String := String.mk (s.data.map Char.toLower)

def splitWsGo (cur : List Char) : List Char → List (List Char)
  | [] => if cur.isEmpty then [] else [cur.reverse]
  | c :: rest =>
    if pyIsSpace c then
      if cur.isEmpty then splitWsGo [] rest
      else cur.reverse :: splitWsGo [] rest
    else splitWsGo (c :: cur) rest

/-- Python `str.split()`: split on whitespace runs, dropping empty pieces. -/
def pySplit (s : String) : List String := (splitWsGo [] s.data).map String.mk

/-- The digit run of Python `int(str)`: digits with single underscores
allowed between digits. -/
def pyDigits (acc : Nat) : List Char → Option Nat
  | [] => some acc
  | '_' :: c :: rest => if c.isDigit then pyDigits (acc * 10 + digitVal c) rest else none
  | ['_'] => none
  | c :: rest => if c.isDigit then pyDigits (acc * 10 + digitVal c) rest else none

def pyDigitRun : List Char → Option Nat
  | [] => none
  | c :: rest => if c.isDigit then pyDigits (digitVal c) rest else none

/-- Python `int()` on a whitespace-free token: optional sign, then digits. -/
def parsePyInt (s : String) : Option Int :=
  match s.data with
  | '+' :: rest => (pyDigitRun rest).map (fun n => (n : Int))
  | '-' :: rest => (pyDigitRun rest).map (fun n => -(n : Int))
  | cs => (pyDigitRun cs).map (fun n => (n : Int))

/-- The `while i < len(parts)` loop of `_parse_duration_minutes` (agent.py
lines 150-167): a number followed by a unit word adds (only) hours or
minutes and skips both tokens; a trailing number adds itself; a non-number
is skipped. -/
def durLoop : List String → Int
  | [] => 0
  | [p] =>
    match parsePyInt p with
    | some num => num
    | none => 0
  | p :: unit :: rest =>
    match parsePyInt p with
    | some num =>
      (if strIn "hour" unit then num * 60
       else if strIn "min" unit then num
       else 0) + durLoop rest
    | none => durLoop (unit :: rest)

/-- `_parse_duration_minutes` (agent.py lines 148-168). -/
def _parse_duration_minutes (duration : String) : Int :=
  let minutes := durLoop (pySplit (pyToLower duration))
  if minutes > 0 then minutes else 30

/-- `_times_overlap` (agent.py lines 126-145): `[start, start+duration)`
interval intersection; an unparseable time is `False` (the caught
`ValueError`). -/
def _times_overlap (ev1 ev2 : Event) : Bool :=
  match parseTime12 ev1.time, parseTime12 ev2.time with
  | some start1, some start2 =>
    let d1 := _parse_duration_minutes ev1.duration
    let d2 := _parse_duration_minutes ev2.duration
    decide ((start1 : Int) < (start2 : Int) + d2) && decide ((start2 : Int) < (start1 : Int) + d1)
  | _, _ => false

def fmt2 (n : Nat) : String := if n < 10 then "0" ++ toString n else toString n

/-- `_event_sort_key` (agent.py lines 81-91): date, then the 24h "HH:MM"
rendering of the time, with "00:00" for all-day and "99:99" for
unparseable times. -/
def _event_sort_key (event : Event) : String × String :=
  let timeKey :=
    if event.time == "All day" then "00:00"
    else match parseTime12 event.time with
      | some m => fmt2 (m / 60) ++ ":" ++ fmt2 (m % 60)
      | none => "99:99"
  (event.date, timeKey)

/-- A conflict descriptor (agent.py lines 116-120). -/
structure Conflict where
  time : String
  events : List String
  calendar_source : String
deriving DecidableEq

def mkConflict (ev1 ev2 : Event) : Conflict :=
  ⟨ev1.day ++ " " ++ ev1.time, [ev1.title, ev2.title], ev1.calendar_source⟩

/-- The inner `for ev2 in timed[i+1:]` scan with its `break` on a date
change (agent.py lines 110-121). -/
def innerScan (ev1 : Event) : List Event → List Conflict
  | [] => []
  | ev2 :: rest =>
    if ev1.date ≠ ev2.date then []
    else if ev1.calendar_source ≠ ev2.calendar_source then innerScan ev1 rest
    else if _times_overlap ev1 ev2 then mkConflict ev1 ev2 :: innerScan ev1 rest
    else innerScan ev1 rest

/-- The outer `for i, ev1 in enumerate(timed)` loop. -/
def outerScan : List Event → List Conflict
  | [] => []
  | ev1 :: rest => innerScan ev1 rest ++ outerScan rest

/-- `_detect_conflicts` (agent.py lines 94-123). -/
def _detect_conflicts (events : List Event) : List Conflict :=
  outerScan (events.filter (fun e => !e.is_all_day))

/-- Claim C2's reading of conflict detection: every ordered pair of the
timed sublist is examined, with no early break. -/
def conflictCond (a b : Event) : Bool :=
  a.date == b.date && a.calendar_source == b.calendar_source && _times_overlap a b

def pairScan : List Event → List Conflict
  | [] => []
  | e :: rest => (rest.filter (conflictCond e)).map (mkConflict e) ++ pairScan rest

def detectConflictsSpec (events : List Event) : List Conflict :=
  pairScan (events.filter (fun e => !e.is_all_day))

/-- Python `<` on strings: lexicographic comparison by code point. -/
def charListLt : List Char → List Char → Bool
  | [], [] => false
  | [], _ :: _ => true
  | _ :: _, [] => false
  | a :: xs, b :: ys =>
    if a.toNat < b.toNat then true
    else if b.toNat < a.toNat then false
    else charListLt xs ys

def pyStrLt (a b : String) : Bool := charListLt a.data b.data

/-- Python `<=` on strings (total order: `a <= b` iff `not (b < a)`). -/
def pyStrLe (a b : String) : Bool := !pyStrLt b a

/-- Python tuple `<=` on sort keys, as `list.sort` compares them. -/
def keyLE (a b : String × String) : Bool :=
  pyStrLt a.1 b.1 || (a.1 == b.1 && pyStrLe a.2 b.2)

/-- The precondition of claim C2: the input is chronologically sorted the
way `fetch_week_events` sorts it (`all_events.sort(key=_event_sort_key)`). -/
def eventsSorted (events : List Event) : Prop :=
  List.Pairwise (fun x y => keyLE (_event_sort_key x) (_event_sort_key y) = true) events

/-- One step of the `day_counts` insertion-ordered map (agent.py line 185). -/
def bumpCount (m : List (String × Nat)) (day : String) : List (String × Nat) :=
  match m with
  | [] => [(day, 1)]
  | (k, v) :: rest => if k = day then (k, v + 1) :: rest else (k, v) :: bumpCount rest day

/-- The `day_counts` dict after the counting loop (agent.py lines 182-185). -/
def buildCounts (events : List Event) : List (String × Nat) :=
  events.foldl (fun m e => bumpCount m e.day) []

def maxKeyGo (bk : String) (bv : Nat) : List (String × Nat) → String
  | [] => bk
  | (k, v) :: rest => if v > bv then maxKeyGo k v rest else maxKeyGo bk bv rest

/-- `max(day_counts, key=day_counts.get)`: the first key of maximal count in
insertion order (`max` replaces only on a strictly greater value). -/
def maxKey : List (String × Nat) → String
  | [] => ""
  | (k, v) :: rest => maxKeyGo k v rest

/-- `_find_busiest_day` (agent.py lines 171-186). -/
def _find_busiest_day (events : List Event) : String :=
  if events.isEmpty then ""
  else maxKey (buildCounts events)

/-- Number of events on day `d` (counting by the `day` field). -/
def countDay (events : List Event) (d : String) : Nat :=
  (events.filter (fun e => e.day = d)).length

/-- Index of the first event whose day is `d`. -/
def firstIdx (events : List Event) (d : String) : Nat :=
  events.findIdx (fun e => e.day = d)

/-! ## Auxiliary notions the claims are stated with -/

/-- Whether an HTTP attempt outcome makes the client retry. -/
def HttpOutcome.retriable : HttpOutcome → Bool
  | .success _ => false
  | _ => true

/-- Did `validate_agent_card` return `(True, _)`? -/
def cardOk (c : JVal) : Bool :=
  match validate_agent_card c with
  | .ok (b, _) => b
  | .error _ => false

/-- Claim C9's store invariant: every stored task is keyed by its own id
field, has a non-empty history, and a state from the TaskState enum. -/
def StoreInv (store : TaskStore) : Prop :=
  ∀ k t, (k, t) ∈ store →
    t.lookup "id" = some (.str k) ∧
    (∃ m rest, t.lookup "history" = some (.arr (m :: rest))) ∧
    (∃ s, (t.lookup "status").bind (fun st => st.lookup "state") = some (.str s) ∧
      s ∈ taskStates)

/-- The distinct day names in order of first occurrence: the key sequence of
the `day_counts` dict. -/
def dedupDays (events : List Event) : List String :=
  events.foldl (fun acc e => if acc.contains e.day then acc else acc ++ [e.day]) []

/-! ## Concrete inputs used by counterexamples and witnesses -/

/-- A well-formed agent card. -/
def goodCard : JVal :=
  .obj [("name", .str "Calendar Agent"), ("description", .str "Fetches events"),
        ("version", .str "1.0.0"),
        ("supported_interfaces", .arr [.obj [("url", .str "http://localhost:5001"),
          ("protocol_binding", .str "HTTP+JSON"), ("protocol_version", .str "0.3")]]),
        ("skills", .arr [.obj [("id", .str "fetch_week_events"),
          ("name", .str "Fetch Week Events"),
          ("description", .str "Fetch calendar events"),
          ("tags", .arr [.str "calendar"])]])]

/-- A card whose `supported_interfaces` holds a non-dict element. -/
def badIfaceCard : JVal :=
  .obj [("name", .str "A"), ("description", .str "B"), ("version", .str "1.0.0"),
        ("supported_interfaces", .arr [.num 42]), ("skills", .arr [])]

/-- A card whose `skills` holds a non-container element. -/
def badSkillCard : JVal :=
  .obj [("name", .str "A"), ("description", .str "B"), ("version", .str "1.0.0"),
        ("supported_interfaces", .arr [.obj [("url", .str "http://x"),
          ("protocol_binding", .str "HTTP+JSON"), ("protocol_version", .str "0.3")]]),
        ("skills", .arr [.num 7])]

/-- A discovery environment: the base URL `http://a` serves `goodCard`,
everything else is unreachable. -/
def discEnv : String → Option JVal := fun url =>
  if url = "http://a" ++ AGENT_CARD_PATH then some goodCard else none

/-- An environment in which every agent serves `badIfaceCard`. -/
def badEnv : String → Option JVal := fun _ => some badIfaceCard

/-- A structurally valid message carrying only a text part. -/
def textOnlyMsg : JVal :=
  .obj [("message_id", .str "m1"), ("role", .str "user"),
        ("parts", .arr [.obj [("type", .str "text"), ("text", .str "just some text")]])]

def goodParams : JVal :=
  .obj [("start_date", .str "2025-02-17"), ("end_date", .str "2025-02-23"),
        ("calendars", .arr [])]

/-- A valid message with a data part carrying `action` and `parameters`. -/
def goodMsg : JVal :=
  .obj [("message_id", .str "m1"), ("role", .str "user"),
        ("parts", .arr [.obj [("type", .str "data"),
          ("data", .obj [("action", .str "fetch_week_events"),
                         ("parameters", goodParams)])]])]

/-- A structurally valid message whose data part has both `action` and
`parameters` keys but a non-dict `parameters` value. -/
def badParamsMsg : JVal :=
  .obj [("message_id", .str "m1"), ("role", .str "user"),
        ("parts", .arr [.obj [("type", .str "data"),
          ("data", .obj [("action", .str "fetch_week_events"),
                         ("parameters", .num 5)])]])]

/-- A deterministic id/timestamp supply for concrete runs. -/
def gDemo : GenEnv := ⟨fun n => "uuid-" ++ toString n, fun n => "ts-" ++ toString n⟩

def demoFetch : FetchResult := ⟨[.obj [("day", .str "Monday")]], [], 1, "Monday"⟩

/-- A collaborator that always returns (never raises). -/
def alwaysOkCollab : Collab := fun _ _ _ => .ok demoFetch

/-- Events for the C2 scenarios (already in sorted order). -/
def evA : Event := ⟨"Meeting A", "2025-02-17", "Monday", "2:00 PM", "1 hour", "You", false⟩
def evB : Event := ⟨"Meeting B", "2025-02-17", "Monday", "2:30 PM", "1 hour", "You", false⟩
def evBOther : Event := ⟨"Meeting B", "2025-02-17", "Monday", "2:30 PM", "1 hour", "Partner", false⟩
def evAAllDay : Event := ⟨"Meeting A", "2025-02-17", "Monday", "All day", "All day", "You", true⟩
def evBAllDay : Event := ⟨"Meeting B", "2025-02-17", "Monday", "All day", "All day", "You", true⟩
def ev9 : Event := ⟨"Morning", "2025-02-17", "Monday", "9:00 AM", "1 hour", "You", false⟩
def ev10 : Event := ⟨"Next", "2025-02-17", "Monday", "10:00 AM", "1 hour", "You", false⟩

/-- The busiest-day example of the spec: Monday ×3, Tuesday ×2, Wednesday ×1. -/
def c8events : List Event :=
  [⟨"e1", "2025-02-17", "Monday", "9:00 AM", "30 min", "You", false⟩,
   ⟨"e2", "2025-02-17", "Monday", "1:00 PM", "30 min", "You", false⟩,
   ⟨"e3", "2025-02-17", "Monday", "3:00 PM", "30 min", "You", false⟩,
   ⟨"e4", "2025-02-18", "Tuesday", "9:00 AM", "30 min", "You", false⟩,
   ⟨"e5", "2025-02-18", "Tuesday", "1:00 PM", "30 min", "You", false⟩,
   ⟨"e6", "2025-02-19", "Wednesday", "9:00 AM", "30 min", "You", false⟩]

/-- An agent card advertising both mandatory orchestrator skills and no
Telegram skill (the skill-map build reads only `skills[].id`). -/
def cardBoth : JVal :=
  .obj [("name", .str "Both"), ("description", .str "d"), ("version", .str "1.0.0"),
        ("supported_interfaces", .arr [.obj [("url", .str "http://x"),
          ("protocol_binding", .str "HTTP+JSON"), ("protocol_version", .str "0.3")]]),
        ("skills", .arr [.obj [("id", .str "fetch_week_events")],
                         .obj [("id", .str "format_weekly_preview")]])]

def calDataW : JVal :=
  .obj [("events", .arr []), ("conflicts", .arr []), ("total_events", .num 0),
        ("busiest_day", .str "")]

/-- A completed calendar-task transport response. -/
def calRespW : JVal :=
  .obj [("task", .obj [("status", .obj [("state", .str "completed")]),
    ("artifacts", .arr [.obj [("parts", .arr [.obj [("type", .str "data"),
      ("data", calDataW)]])]])])]

/-- A completed formatter-task transport response with the text "Preview". -/
def fmtRespW : JVal :=
  .obj [("task", .obj [("status", .obj [("state", .str "completed")]),
    ("artifacts", .arr [.obj [("parts", .arr [.obj [("type", .str "text"),
      ("text", .str "Preview")]])]])])]

/-! ## Theorems -/

/-- C4: every validator is claimed to return a `(bool, str)` pair and never
raise, for every input value including non-dict elements nested inside an
AgentCard's `supported_interfaces` or `skills` lists; `validate_agent_card`
however raises `AttributeError` on a non-dict interface element and
`TypeError` on a non-container skill element, evaluated here on two such
cards. -/
theorem C4_validate_agent_card_raises :
    validate_agent_card badIfaceCard = .error .attributeError ∧
    validate_agent_card badSkillCard = .error .typeError := ⟨rfl, rfl⟩

/-- C6: a SendMessageRequest failing validation makes the transport client
return `{error: {code: InvalidMessageError, message: <the validator's
description>}}` immediately: no backoff sleep and zero HTTP attempts. -/
theorem C6_invalid_request_no_http (http : Nat → HttpOutcome) (agent_url : String)
    (request : JVal) (maxRetries : Nat) (desc : String)
    (hv : validate_send_message_request request = .ok (false, desc)) :
    client_send_message http agent_url request maxRetries =
      .ok (errorDict "InvalidMessageError" desc, [], 0) := by
  simp only [client_send_message, hv]
  rfl

/-- C6 witness: the empty dict is an invalid request and is rejected with
zero HTTP attempts. -/
theorem C6_witness :
    client_send_message (fun _ => .timeout) "http://cal" (.obj []) 2 =
      .ok (errorDict "InvalidMessageError" "SendMessageRequest must include 'message'.",
           [], 0) :=
  C6_invalid_request_no_http _ _ _ _ _ rfl

/-- All attempts from `a` time out: the loop returns the TimeoutError dict
after sleeping `2^(a+1), ..., 2^(a+k)` and issuing `k+1` attempts. -/
theorem clientAttempts_timeout (http : Nat → HttpOutcome) (url : String) (maxRetries : Nat) :
    ∀ k a, a + k = maxRetries → (∀ i, a ≤ i → http i = .timeout) →
    clientAttempts http url maxRetries a (k + 1) =
      (errorDict "TimeoutError" ("Timeout calling " ++ url),
       (List.range' (a + 1) k).map (fun e => 2 ^ e), k + 1) := by
  intro k
  induction k with
  | zero =>
    intro a ha hto
    simp only [clientAttempts, hto a le_rfl]
    rw [if_neg (by omega)]
    simp [List.range']
  | succ k ih =>
    intro a ha hto
    have hlt : a < maxRetries := by omega
    rw [clientAttempts, hto a le_rfl]
    simp only [if_pos hlt]
    rw [ih (a + 1) (by omega) (fun i hi => hto i (by omega))]
    rw [List.range'_succ]
    rfl

/-- The first success is at absolute attempt `j`: the loop returns its
payload after the earlier backoffs and `j - a + 1` attempts. -/
theorem clientAttempts_success (http : Nat → HttpOutcome) (url : String) (maxRetries : Nat)
    (v : JVal) :
    ∀ r a j, a + r = maxRetries + 1 → a ≤ j → j ≤ maxRetries →
      (∀ i, a ≤ i → i < j → (http i).retriable = true) → http j = .success v →
      clientAttempts http url maxRetries a r =
        (v, (List.range' (a + 1) (j - a)).map (fun e => 2 ^ e), j - a + 1) := by
  intro r
  induction r with
  | zero => intro a j h1 h2 h3 _ _; omega
  | succ r ih =>
    intro a j h1 h2 h3 hret hj
    rcases Nat.eq_or_lt_of_le h2 with rfl | hlt
    · rw [clientAttempts, hj]
      simp [List.range']
    · have hretr := hret a le_rfl hlt
      have hsub : j - a = (j - (a + 1)) + 1 := by omega
      cases hha : http a with
      | success w => rw [hha] at hretr; simp [HttpOutcome.retriable] at hretr
      | timeout =>
        rw [clientAttempts, hha]
        simp only [if_pos (show a < maxRetries by omega)]
        rw [ih (a + 1) j (by omega) (by omega) h3 (fun i hi hi2 => hret i (by omega) hi2) hj,
          hsub, List.range'_succ]
        simp only [List.map_cons]
      | failure msg =>
        rw [clientAttempts, hha]
        simp only [if_pos (show a < maxRetries by omega)]
        rw [ih (a + 1) j (by omega) (by omega) h3 (fun i hi hi2 => hret i (by omega) hi2) hj,
          hsub, List.range'_succ]
        simp only [List.map_cons]

/-- C3: for a valid request, (a) if every HTTP attempt times out the client
makes exactly `max_retries + 1` attempts, sleeping `2^(attempt+1)` seconds
after each non-final attempt — the backoff sequence `2, 4, ...,
2^max_retries` — and returns the TimeoutError dict; (b) if the first
success is at attempt `k`, its response payload is returned after exactly
`k + 1` attempts (no further ones). -/
theorem C3_retry_backoff (http : Nat → HttpOutcome) (agent_url : String) (request : JVal)
    (maxRetries : Nat) (d : String)
    (hv : validate_send_message_request request = .ok (true, d)) :
    ((∀ i, http i = .timeout) →
      client_send_message http agent_url request maxRetries =
        .ok (errorDict "TimeoutError" ("Timeout calling " ++ (agent_url ++ "/message/send")),
             (List.range maxRetries).map (fun a => 2 ^ (a + 1)), maxRetries + 1)) ∧
    (∀ k v, k ≤ maxRetries → (∀ i, i < k → (http i).retriable = true) →
      http k = .success v →
      client_send_message http agent_url request maxRetries =
        .ok (v, (List.range k).map (fun a => 2 ^ (a + 1)), k + 1)) := by
  have hrange : ∀ n : Nat, (List.range' 1 n).map (fun e => 2 ^ e) =
      (List.range n).map (fun a => 2 ^ (a + 1)) := by
    intro n
    induction n with
    | zero => rfl
    | succ n ihn =>
      rw [List.range'_1_concat, List.range_succ, List.map_append, List.map_append, ihn]
      simp [Nat.add_comm]
  constructor
  · intro hto
    simp only [client_send_message, hv, Except.bind, Bool.not_true, Bool.false_eq_true,
      if_false]
    rw [clientAttempts_timeout http _ maxRetries maxRetries 0 (by omega) (fun i _ => hto i)]
    rw [Nat.zero_add, hrange]
    rfl
  · intro k v hk hret hs
    simp only [client_send_message, hv, Except.bind, Bool.not_true, Bool.false_eq_true,
      if_false]
    rw [clientAttempts_success http _ maxRetries v (maxRetries + 1) 0 k (by omega)
      (by omega) hk (fun i _ hi => hret i hi) hs]
    rw [Nat.zero_add, Nat.sub_zero, hrange]
    rfl

/-- C3 witness: `max_retries = 2` and every attempt timing out gives three
attempts, the sleeps `[2, 4]` and the TimeoutError dict. -/
theorem C3_witness :
    client_send_message (fun _ => .timeout) "http://cal" (.obj [("message", textOnlyMsg)]) 2 =
      .ok (errorDict "TimeoutError" "Timeout calling http://cal/message/send", [2, 4], 3) := by
  have h := (C3_retry_backoff (fun _ => .timeout) "http://cal"
    (.obj [("message", textOnlyMsg)]) 2 "" rfl).1 (fun _ => rfl)
  simpa using h

/-- C10: `_parse_duration_minutes` is total over strings and always returns
a positive count; whenever the parsing loop accumulates no positive
quantity the default of 30 minutes is returned — in particular on the empty
string and on a zero duration. -/
theorem C10_duration_positive (s : String) :
    0 < _parse_duration_minutes s ∧
    (durLoop (pySplit (pyToLower s)) ≤ 0 → _parse_duration_minutes s = 30) ∧
    _parse_duration_minutes "" = 30 ∧
    _parse_duration_minutes "0 min" = 30 := by
  have heq : _parse_duration_minutes s =
      if durLoop (pySplit (pyToLower s)) > 0 then durLoop (pySplit (pyToLower s)) else 30 := rfl
  refine ⟨?_, ?_, rfl, rfl⟩
  · rw [heq]
    split_ifs with h
    · exact h
    · norm_num
  · intro hle
    rw [heq, if_neg (by omega)]

/-- C10 witness: "All day" parses to no quantity and yields the default. -/
theorem C10_witness :
    durLoop (pySplit (pyToLower "All day")) ≤ 0 ∧
      _parse_duration_minutes "All day" = 30 :=
  ⟨by decide, (C10_duration_positive "All day").2.1 (by decide)⟩

/-! ### C8: busiest day -/

theorem countDay_concat (l : List Event) (e : Event) (d : String) :
    countDay (l ++ [e]) d = countDay l d + (if e.day = d then 1 else 0) := by
  simp only [countDay, List.filter_append, List.length_append]
  congr 1
  by_cases h : e.day = d
  · simp [List.filter, h]
  · simp [List.filter, h]

theorem countDay_eq_zero (l : List Event) (d : String) :
    countDay l d = 0 ↔ ∀ e ∈ l, e.day ≠ d := by
  simp [countDay, List.length_eq_zero, List.filter_eq_nil_iff]

theorem dedupDays_concat (l : List Event) (e : Event) :
    dedupDays (l ++ [e]) =
      if (dedupDays l).contains e.day then dedupDays l else dedupDays l ++ [e.day] := by
  simp [dedupDays, List.foldl_concat]

theorem contains_iff_mem_str (l : List String) (a : String) :
    l.contains a = true ↔ a ∈ l := by
  simp [List.contains]

theorem mem_dedupDays (l : List Event) : ∀ d : String,
    d ∈ dedupDays l ↔ ∃ e ∈ l, e.day = d := by
  induction l using List.reverseRecOn with
  | nil => intro d; simp [dedupDays]
  | append_singleton l e ih =>
    intro d
    rw [dedupDays_concat]
    by_cases hc : (dedupDays l).contains e.day
    · rw [if_pos hc]
      have he : ∃ e' ∈ l, e'.day = e.day := (ih e.day).mp ((contains_iff_mem_str _ _).mp hc)
      rw [ih d]
      constructor
      · rintro ⟨e', he', hd⟩
        exact ⟨e', by simp [he'], hd⟩
      · rintro ⟨e', he', hd⟩
        have hmem := he'
        simp only [List.mem_append, List.mem_singleton] at hmem
        rcases hmem with h | rfl
        · exact ⟨e', h, hd⟩
        · obtain ⟨f, hf, hfd⟩ := he
          exact ⟨f, hf, by rw [hfd, hd]⟩
    · rw [if_neg hc]
      simp only [List.mem_append, List.mem_singleton, ih d]
      constructor
      · rintro (⟨e', he', hd⟩ | rfl)
        · exact ⟨e', by simp [he'], hd⟩
        · exact ⟨e, by simp, rfl⟩
      · rintro ⟨e', he', hd⟩
        have hmem := he'
        simp only [List.mem_append, List.mem_singleton] at hmem
        rcases hmem with h | rfl
        · exact .inl ⟨e', h, hd⟩
        · exact .inr hd.symm

theorem dedupDays_nodup (l : List Event) : (dedupDays l).Nodup := by
  induction l using List.reverseRecOn with
  | nil => simp [dedupDays]
  | append_singleton l e ih =>
    rw [dedupDays_concat]
    by_cases hc : (dedupDays l).contains e.day
    · rw [if_pos hc]; exact ih
    · rw [if_neg hc]
      rw [List.nodup_append]
      refine ⟨ih, List.nodup_singleton _, ?_⟩
      intro a ha hb
      simp only [List.mem_singleton] at hb
      subst hb
      exact hc ((contains_iff_mem_str _ _).mpr ha)

theorem buildCounts_concat (l : List Event) (e : Event) :
    buildCounts (l ++ [e]) = bumpCount (buildCounts l) e.day := by
  simp [buildCounts, List.foldl_concat]

theorem bumpCount_map_mem (ds : List String) (f : String → Nat) (day : String)
    (hmem : day ∈ ds) (hnd : ds.Nodup) :
    bumpCount (ds.map (fun x => (x, f x))) day =
      ds.map (fun x => (x, f x + if x = day then 1 else 0)) := by
  induction ds with
  | nil => simp at hmem
  | cons a t ih =>
    rw [List.nodup_cons] at hnd
    rcases List.mem_cons.mp hmem with rfl | hmt
    · have htail : List.map (fun x => (x, f x + if x = day then 1 else 0)) t
          = List.map (fun x => (x, f x)) t := by
        refine List.map_congr_left ?_
        intro x hx
        rw [if_neg (by rintro rfl; exact hnd.1 hx)]
        simp
      simp only [List.map_cons, htail]
      simp [bumpCount]
    · have hne : a ≠ day := by
        rintro rfl
        exact hnd.1 hmt
      simp only [List.map_cons, bumpCount, if_neg hne]
      rw [ih hmt hnd.2]
      simp [if_neg hne]

theorem bumpCount_map_not_mem (ds : List String) (f : String → Nat) (day : String)
    (hmem : day ∉ ds) :
    bumpCount (ds.map (fun x => (x, f x))) day =
      ds.map (fun x => (x, f x)) ++ [(day, 1)] := by
  induction ds with
  | nil => rfl
  | cons a t ih =>
    have hne : a ≠ day := fun h => hmem (h ▸ List.mem_cons_self a t)
    simp only [List.map_cons, bumpCount, if_neg hne, List.cons_append]
    rw [ih (fun h => hmem (List.mem_cons_of_mem a h))]

theorem buildCounts_eq (l : List Event) :
    buildCounts l = (dedupDays l).map (fun d => (d, countDay l d)) := by
  induction l using List.reverseRecOn with
  | nil => rfl
  | append_singleton l e ih =>
    rw [buildCounts_concat, ih, dedupDays_concat]
    by_cases hc : (dedupDays l).contains e.day
    · rw [if_pos hc]
      rw [bumpCount_map_mem _ _ _ ((contains_iff_mem_str _ _).mp hc) (dedupDays_nodup l)]
      refine List.map_congr_left ?_
      intro d _
      rw [countDay_concat]
      congr 1
      by_cases h : d = e.day
      · rw [if_pos h, if_pos h.symm]
      · rw [if_neg h, if_neg (fun hh => h hh.symm)]
    · rw [if_neg hc]
      rw [bumpCount_map_not_mem _ _ _
        (fun h => hc ((contains_iff_mem_str _ _).mpr h))]
      rw [List.map_append]
      congr 1
      · refine List.map_congr_left ?_
        intro d hd
        rw [countDay_concat]
        have : e.day ≠ d := by
          rintro rfl
          exact hc ((contains_iff_mem_str _ _).mpr hd)
        rw [if_neg this]
        simp
      · simp only [List.map_cons, List.map_nil]
        have h0 : countDay l e.day = 0 := by
          rw [countDay_eq_zero]
          intro f hf hfd
          exact hc ((contains_iff_mem_str _ _).mpr ((mem_dedupDays l e.day).mpr ⟨f, hf, hfd⟩))
        rw [countDay_concat, h0, if_pos rfl]

theorem firstIdx_append_of_mem (l : List Event) (e : Event) (d : String)
    (h : ∃ x ∈ l, x.day = d) :
    firstIdx (l ++ [e]) d = firstIdx l d := by
  have : List.findIdx (fun x => x.day = d) l < l.length :=
    List.findIdx_lt_length_of_exists (by simpa using h)
  simp [firstIdx, List.findIdx_append, this]

theorem firstIdx_append_new (l : List Event) (e : Event)
    (h : ∀ x ∈ l, x.day ≠ e.day) :
    firstIdx (l ++ [e]) e.day = l.length := by
  have hlen : List.findIdx (fun x => x.day = e.day) l = l.length := by
    rw [List.findIdx_eq_length]
    intro x hx
    simpa using h x hx
  simp [firstIdx, List.findIdx_append, hlen, List.findIdx_cons]

theorem dedupDays_pairwise_firstIdx (l : List Event) :
    (dedupDays l).Pairwise (fun d1 d2 => firstIdx l d1 < firstIdx l d2) := by
  induction l using List.reverseRecOn with
  | nil => simp [dedupDays]
  | append_singleton l e ih =>
    rw [dedupDays_concat]
    by_cases hc : (dedupDays l).contains e.day
    · rw [if_pos hc]
      refine ih.imp_of_mem ?_
      intro a b ha hb hab
      rw [firstIdx_append_of_mem l e a ((mem_dedupDays l a).mp ha),
        firstIdx_append_of_mem l e b ((mem_dedupDays l b).mp hb)]
      exact hab
    · rw [if_neg hc]
      have hnew : ∀ x ∈ l, x.day ≠ e.day := by
        intro x hx hxd
        exact hc ((contains_iff_mem_str _ _).mpr ((mem_dedupDays l e.day).mpr ⟨x, hx, hxd⟩))
      rw [List.pairwise_append]
      refine ⟨ih.imp_of_mem ?_, List.pairwise_singleton _ _, ?_⟩
      · intro a b ha hb hab
        rw [firstIdx_append_of_mem l e a ((mem_dedupDays l a).mp ha),
          firstIdx_append_of_mem l e b ((mem_dedupDays l b).mp hb)]
        exact hab
      · intro a ha b hb
        simp only [List.mem_singleton] at hb
        subst hb
        rw [firstIdx_append_of_mem l e a ((mem_dedupDays l a).mp ha),
          firstIdx_append_new l e hnew]
        have hlt : l.findIdx (fun x => x.day = a) < l.length :=
          List.findIdx_lt_length_of_exists (by simpa using (mem_dedupDays l a).mp ha)
        simpa [firstIdx] using hlt

theorem maxKeyGo_split (m : List (String × Nat)) : ∀ bk bv, ∃ pre post v,
    (bk, bv) :: m = pre ++ (maxKeyGo bk bv m, v) :: post ∧
    (∀ p ∈ pre, p.2 < v) ∧ (∀ p ∈ post, p.2 ≤ v) := by
  induction m with
  | nil =>
    intro bk bv
    exact ⟨[], [], bv, rfl, by simp, by simp⟩
  | cons kv t ih =>
    intro bk bv
    obtain ⟨k, w⟩ := kv
    by_cases h : w > bv
    · obtain ⟨pre, post, v, heq, hpre, hpost⟩ := ih k w
      have hall : ∀ p ∈ (k, w) :: t, p.2 ≤ v := by
        intro p hp
        rw [heq] at hp
        rcases List.mem_append.mp hp with hh | hh
        · exact le_of_lt (hpre p hh)
        · rcases List.mem_cons.mp hh with rfl | hh
          · exact le_rfl
          · exact hpost p hh
      have hwv : w ≤ v := hall (k, w) (List.mem_cons_self _ _)
      refine ⟨(bk, bv) :: pre, post, v, ?_, ?_, hpost⟩
      · simp only [maxKeyGo, if_pos h, List.cons_append]
        rw [heq]
      · intro p hp
        rcases List.mem_cons.mp hp with rfl | hp
        · exact lt_of_lt_of_le h hwv
        · exact hpre p hp
    · obtain ⟨pre, post, v, heq, hpre, hpost⟩ := ih bk bv
      cases pre with
      | nil =>
        simp only [List.nil_append] at heq
        injection heq with heq1 heq2
        injection heq1 with hbk hbv
        refine ⟨[], (k, w) :: t, bv, ?_, by simp, ?_⟩
        · simp only [List.nil_append]
          have hstep : maxKeyGo bk bv ((k, w) :: t) = maxKeyGo bk bv t := by
            simp [maxKeyGo, if_neg h]
          rw [hstep, ← hbk]
        · intro p hp
          rcases List.mem_cons.mp hp with rfl | hp
          · omega
          · have hin : p ∈ post := heq2 ▸ hp
            have := hpost p hin
            omega
      | cons q pre₂ =>
        simp only [List.cons_append] at heq
        injection heq with heq1 heq2
        have hbv : bv < v := by
          have := hpre q (List.mem_cons_self _ _)
          rw [← heq1] at this
          exact this
        refine ⟨(bk, bv) :: (k, w) :: pre₂, post, v, ?_, ?_, hpost⟩
        · simp only [List.cons_append]
          have hstep : maxKeyGo bk bv ((k, w) :: t) = maxKeyGo bk bv t := by
            simp [maxKeyGo, if_neg h]
          rw [hstep, ← heq2]
        · intro p hp
          rcases List.mem_cons.mp hp with rfl | hp
          · exact hbv
          · rcases List.mem_cons.mp hp with rfl | hp
            · omega
            · exact hpre p (List.mem_cons_of_mem _ hp)

/-- C8: `_find_busiest_day` returns `""` on the empty list, and otherwise a
day occurring in the input with the highest count (by each event's `day`
field), ties broken in favor of the day first encountered in input order. -/
theorem C8_busiest_day (events : List Event) :
    (events = [] → _find_busiest_day events = "") ∧
    (events ≠ [] →
      (∃ e ∈ events, e.day = _find_busiest_day events) ∧
      (∀ e ∈ events,
        countDay events e.day ≤ countDay events (_find_busiest_day events)) ∧
      (∀ e ∈ events,
        countDay events e.day = countDay events (_find_busiest_day events) →
        firstIdx events (_find_busiest_day events) ≤ firstIdx events e.day)) := by
  constructor
  · rintro rfl
    rfl
  · intro hne
    have hnotempty : events.isEmpty = false := by
      cases events with
      | nil => exact absurd rfl hne
      | cons a t => rfl
    have hfb : _find_busiest_day events = maxKey (buildCounts events) := by
      rw [_find_busiest_day, hnotempty]
      rfl
    obtain ⟨e0, t0⟩ : ∃ e0 t0, events = e0 :: t0 := by
      cases events with
      | nil => exact absurd rfl hne
      | cons a t => exact ⟨a, ⟨t, rfl⟩⟩
    obtain ⟨t0, rfl⟩ := t0
    have hmem0 : e0.day ∈ dedupDays (e0 :: t0) :=
      (mem_dedupDays _ _).mpr ⟨e0, List.mem_cons_self _ _, rfl⟩
    -- the counts list is a nonempty map over the dedup keys
    have hbc := buildCounts_eq (e0 :: t0)
    obtain ⟨d1, ds, hdd⟩ : ∃ d1 ds, dedupDays (e0 :: t0) = d1 :: ds := by
      cases hd : dedupDays (e0 :: t0) with
      | nil => rw [hd] at hmem0; simp at hmem0
      | cons a t => exact ⟨a, t, rfl⟩
    set l := e0 :: t0 with hl
    have hm : buildCounts l = (d1, countDay l d1) ::
        ds.map (fun d => (d, countDay l d)) := by
      rw [hbc, hdd, List.map_cons]
    obtain ⟨pre, post, V, heq, hpre, hpost⟩ :=
      maxKeyGo_split (ds.map (fun d => (d, countDay l d))) d1 (countDay l d1)
    have hmk : maxKey (buildCounts l) =
        maxKeyGo d1 (countDay l d1) (ds.map (fun d => (d, countDay l d))) := by
      rw [hm]; rfl
    set r := _find_busiest_day l with hr
    have hrmk : r = maxKeyGo d1 (countDay l d1) (ds.map (fun d => (d, countDay l d))) := by
      rw [hfb, hmk]
    have hsplit : buildCounts l = pre ++ (r, V) :: post := by
      rw [hm, heq, hrmk]
    -- every entry of the counts list is (d, countDay l d) for a dedup key d
    have hentry : ∀ p : String × Nat, p ∈ buildCounts l →
        p.2 = countDay l p.1 ∧ p.1 ∈ dedupDays l := by
      intro p hp
      rw [hbc] at hp
      obtain ⟨d, hd, hpd⟩ := List.mem_map.mp hp
      constructor
      · rw [← hpd]
      · rw [← hpd]; exact hd
    have hrV : (r, V) ∈ buildCounts l := by
      rw [hsplit]
      exact List.mem_append.mpr (.inr (List.mem_cons_self _ _))
    have hVr : V = countDay l r := (hentry _ hrV).1
    have hrdedup : r ∈ dedupDays l := (hentry _ hrV).2
    refine ⟨(mem_dedupDays _ _).mp hrdedup, ?_, ?_⟩
    · -- maximality
      intro e he
      have hin : (e.day, countDay l e.day) ∈ buildCounts l := by
        rw [hbc]
        exact List.mem_map.mpr ⟨e.day, (mem_dedupDays _ _).mpr ⟨e, he, rfl⟩, rfl⟩
      rw [hsplit] at hin
      rcases List.mem_append.mp hin with h | h
      · exact le_of_lt (hVr ▸ hpre _ h)
      · rcases List.mem_cons.mp h with h | h
        · have : countDay l e.day = V := (Prod.mk.injEq _ _ _ _ ▸ h).2
          omega
        · exact hVr ▸ hpost _ h
    · -- tie-break: first encountered wins
      intro e he htie
      have hin : (e.day, countDay l e.day) ∈ buildCounts l := by
        rw [hbc]
        exact List.mem_map.mpr ⟨e.day, (mem_dedupDays _ _).mpr ⟨e, he, rfl⟩, rfl⟩
      rw [hsplit] at hin
      rcases List.mem_append.mp hin with h | h
      · have hlt : countDay l e.day < V := hpre _ h
        omega
      · rcases List.mem_cons.mp h with h | h
        · have : e.day = r := (Prod.mk.injEq _ _ _ _ ▸ h).1
          rw [this]
        · -- e.day's key sits after r in the dedup order
          have hkeys : dedupDays l = pre.map Prod.fst ++ r :: post.map Prod.fst := by
            have hfst : (buildCounts l).map Prod.fst = dedupDays l := by
              rw [hbc]
              induction dedupDays l with
              | nil => rfl
              | cons a t iht => simp [iht]
            rw [← hfst, hsplit]
            simp
          have hpair := dedupDays_pairwise_firstIdx l
          rw [hkeys, List.pairwise_append] at hpair
          have hrpost := hpair.2.1
          rw [List.pairwise_cons] at hrpost
          have : firstIdx l r < firstIdx l e.day := by
            refine hrpost.1 e.day ?_
            exact List.mem_map.mpr ⟨(e.day, countDay l e.day), h, rfl⟩
          omega

/-! ### Monadic reduction helpers -/

theorem bind_ok_eq {ε α β : Type} (a : α) (f : α → Except ε β) :
    (Except.ok a >>= f : Except ε β) = f a := rfl

theorem bind_err_eq {ε α β : Type} (e : ε) (f : α → Except ε β) :
    (Except.error e >>= f : Except ε β) = .error e := rfl

/-! ### C7: discovery -/

theorem validCard_truthy (c : JVal) (d : String)
    (h : validate_agent_card c = .ok (true, d)) : truthy c = true := by
  cases c with
  | obj fields =>
    cases fields with
    | nil => simp [validate_agent_card, JVal.lookup, assocLookup, truthy] at h
    | cons kv rest => rfl
  | null => simp [validate_agent_card] at h
  | bool b => simp [validate_agent_card] at h
  | num n => simp [validate_agent_card] at h
  | str s => simp [validate_agent_card] at h
  | arr items => simp [validate_agent_card] at h

/-- C7 counterexample: one reachable URL serving a card whose
`supported_interfaces` holds a non-dict element makes `discover_agents`
raise the validator's AttributeError instead of skipping the invalid
card, so "silently skipping ... raising no exception" fails as stated. -/
theorem C7_counterexample :
    discover_agents badEnv ["http://a"] = .error .attributeError := rfl

/-- C7 (amended): provided every reachable URL serves a card on which
`validate_agent_card` returns a verdict (rather than raising on a non-dict
element nested in the card), `discover_agents` returns exactly the valid
agent cards of the reachable URLs, in input order, skipping unreachable
agents and agents with invalid cards, and raises no exception. -/
theorem C7_discover (env : String → Option JVal) : ∀ urls : List String,
    (∀ u ∈ urls, ∀ c, env (u ++ AGENT_CARD_PATH) = some c →
      ∃ r, validate_agent_card c = .ok r) →
    discover_agents env urls = .ok (urls.filterMap (fun u =>
      match env (u ++ AGENT_CARD_PATH) with
      | some c => if cardOk c then some c else none
      | none => none)) := by
  intro urls
  induction urls with
  | nil => intro _; rfl
  | cons u rest ih =>
    intro hsafe
    have hrest := ih (fun v hv => hsafe v (List.mem_cons_of_mem _ hv))
    rw [discover_agents, List.filterMap_cons]
    cases henv : env (u ++ AGENT_CARD_PATH) with
    | none =>
      have hfetch : fetch_agent_card env u = .ok none := by
        simp [fetch_agent_card, henv]
      rw [hfetch, bind_ok_eq, hrest, bind_ok_eq]
      rfl
    | some c =>
      obtain ⟨⟨b, dsc⟩, hv⟩ := hsafe u (List.mem_cons_self _ _) c henv
      have hcardOk : cardOk c = b := by
        rw [cardOk, hv]
      cases b with
      | false =>
        have hfetch : fetch_agent_card env u = .ok none := by
          simp [fetch_agent_card, henv, hv, bind_ok_eq]
          rfl
        rw [hfetch, bind_ok_eq, hrest, bind_ok_eq]
        dsimp only
        rw [hcardOk]
        rfl
      | true =>
        have hfetch : fetch_agent_card env u = .ok (some c) := by
          simp [fetch_agent_card, henv, hv, bind_ok_eq]
          try rfl
        rw [hfetch, bind_ok_eq, hrest, bind_ok_eq]
        dsimp only
        rw [hcardOk, validCard_truthy c dsc hv]
        rfl

/-- C7 witness: two base URLs with the second unreachable give exactly the
first URL's card, with no exception. -/
theorem C7_witness :
    discover_agents discEnv ["http://a", "http://b"] = .ok [goodCard] := by
  have hsafe : ∀ u ∈ ["http://a", "http://b"], ∀ c,
      discEnv (u ++ AGENT_CARD_PATH) = some c →
      ∃ r, validate_agent_card c = .ok r := by
    intro u hu c hc
    rcases List.mem_cons.mp hu with rfl | hu
    · rw [show discEnv ("http://a" ++ AGENT_CARD_PATH) = some goodCard from rfl] at hc
      obtain rfl : goodCard = c := Option.some.inj hc
      exact ⟨(true, ""), rfl⟩
    · rcases List.mem_cons.mp hu with rfl | hu
      · rw [show discEnv ("http://b" ++ AGENT_CARD_PATH) = none from rfl] at hc
        exact absurd hc (by simp)
      · simp at hu
  have h := C7_discover discEnv ["http://a", "http://b"] hsafe
  rw [h]
  rfl

/-! ### The calendar server: request inversion and handler runs -/

theorem validate_smr_shape (incoming : JVal) (d : String)
    (h : validate_send_message_request incoming = .ok (true, d)) :
    ∃ msg, incoming.lookup "message" = some msg ∧ truthy msg = true ∧
      validate_message msg = .ok (true, d) := by
  cases incoming with
  | obj fields =>
    cases hl : JVal.lookup (.obj fields) "message" with
    | none => simp [validate_send_message_request, JVal.lookup] at h
              <;> rw [JVal.lookup] at hl <;> simp [hl, truthy] at h
    | some m =>
      have hl' : assocLookup fields "message" = some m := hl
      simp only [validate_send_message_request, JVal.lookup, hl', Option.getD_some] at h
      by_cases ht : truthy m = true
      · rw [ht] at h
        simp only [Bool.not_true, Bool.false_eq_true, if_false] at h
        exact ⟨m, rfl, ht, h⟩
      · rw [Bool.eq_false_iff.mpr ht] at h
        simp at h
  | null => simp [validate_send_message_request] at h
  | bool b => simp [validate_send_message_request] at h
  | num m => simp [validate_send_message_request] at h
  | str s => simp [validate_send_message_request] at h
  | arr items => simp [validate_send_message_request] at h

theorem validate_part_ok_obj (q : JVal) (e : String)
    (h : validate_part q = .ok (true, e)) : ∃ pf, q = .obj pf := by
  cases q with
  | obj pf => exact ⟨pf, rfl⟩
  | null => simp [validate_part] at h
  | bool b => simp [validate_part] at h
  | num m => simp [validate_part] at h
  | str s => simp [validate_part] at h
  | arr items => simp [validate_part] at h

theorem validateParts_ok : ∀ (parts : List JVal) (i : Nat) (d : String),
    validateParts parts i = .ok (true, d) →
    ∀ p ∈ parts, ∃ pf, p = .obj pf := by
  intro parts
  induction parts with
  | nil => intro i d h p hp; simp at hp
  | cons q rest ih =>
    intro i d h p hp
    cases hvq : validate_part q with
    | error pe =>
      rw [validateParts, hvq, bind_err_eq] at h
      simp at h
    | ok be =>
      obtain ⟨b, e⟩ := be
      cases b with
      | false =>
        rw [validateParts, hvq, bind_ok_eq] at h
        simp at h
      | true =>
        rw [validateParts, hvq, bind_ok_eq] at h
        simp only [Bool.not_true, Bool.false_eq_true, if_false] at h
        rcases List.mem_cons.mp hp with rfl | hp
        · exact validate_part_ok_obj p e hvq
        · exact ih (i + 1) d h p hp

theorem validate_message_shape (m : JVal) (d : String)
    (h : validate_message m = .ok (true, d)) :
    ∃ mfields parts, m = .obj mfields ∧
      assocLookup mfields "parts" = some (.arr parts) ∧
      (∀ p ∈ parts, ∃ pf, p = .obj pf) := by
  cases m with
  | obj mfields =>
    refine ⟨mfields, ?_⟩
    simp only [validate_message, JVal.lookup] at h
    by_cases hid : (assocLookup mfields "message_id").isNone
    · rw [if_pos hid] at h; simp at h
    · rw [if_neg hid] at h
      by_cases hrole : (match (assocLookup mfields "role").getD JVal.null with
          | JVal.str "user" => true
          | JVal.str "agent" => true
          | _ => false) = true
      · rw [hrole] at h
        simp only [Bool.not_true, Bool.false_eq_true, if_false] at h
        cases hp : (assocLookup mfields "parts").getD JVal.null with
        | arr parts =>
          rw [hp] at h
          dsimp only at h
          by_cases hemp : parts.isEmpty
          · rw [if_pos hemp] at h
            simp at h
          · rw [if_neg hemp] at h
            refine ⟨parts, rfl, ?_, validateParts_ok parts 0 d h⟩
            cases hlk : assocLookup mfields "parts" with
            | none => rw [hlk, Option.getD_none] at hp; simp at hp
            | some v =>
              rw [hlk, Option.getD_some] at hp
              exact congrArg some hp
        | null => rw [hp] at h; dsimp only at h; simp at h
        | bool b => rw [hp] at h; dsimp only at h; simp at h
        | num mm => rw [hp] at h; dsimp only at h; simp at h
        | str s => rw [hp] at h; dsimp only at h; simp at h
        | obj o => rw [hp] at h; dsimp only at h; simp at h
      · rw [Bool.eq_false_iff.mpr hrole] at h
        simp at h
  | null => simp [validate_message] at h
  | bool b => simp [validate_message] at h
  | num mm => simp [validate_message] at h
  | str s => simp [validate_message] at h
  | arr items => simp [validate_message] at h

theorem extractFromParts_total : ∀ parts : List JVal,
    (∀ p ∈ parts, ∃ pf, p = .obj pf) → ∃ o, extractFromParts parts = .ok o := by
  intro parts
  induction parts with
  | nil => intro _; exact ⟨none, rfl⟩
  | cons q rest ih =>
    intro hobj
    obtain ⟨pf, rfl⟩ := hobj q (List.mem_cons_self _ _)
    have ihr := ih (fun p hp => hobj p (List.mem_cons_of_mem _ hp))
    simp only [extractFromParts, pyGet, bind_ok_eq]
    by_cases htype : (match (assocLookup pf "type").getD JVal.null with
        | JVal.str s => s == "data"
        | _ => false) = true
    · rw [if_pos htype]
      cases hd : (assocLookup pf "data").getD JVal.null with
      | obj dfields =>
        dsimp only
        by_cases hks : (((JVal.obj dfields).lookup "action").isSome &&
            ((JVal.obj dfields).lookup "parameters").isSome) = true
        · rw [if_pos hks]
          have hps := (Bool.and_eq_true_iff.mp hks).2
          cases hpar : assocLookup dfields "parameters" with
          | none =>
            simp only [JVal.lookup, hpar, Option.isSome_none] at hps
            exact absurd hps (by simp)
          | some x =>
            refine ⟨some x, ?_⟩
            simp [pyIndex, hpar]
        · rw [if_neg hks]
          exact ihr
      | null => exact ihr
      | bool b => exact ihr
      | num mm => exact ihr
      | str str2 => exact ihr
      | arr items => exact ihr
    · rw [if_neg htype]
      exact ihr

/-- The components of `create_task` for any `context_id` argument: the id is
the freshly drawn `g.ids n`, history and artifacts start empty. -/
theorem create_task_parts (g : GenEnv) (n : Nat) (cid : Option JVal) :
    ∃ ctxVal n1, create_task g n cid =
      (.obj [("id", .str (g.ids n)), ("context_id", ctxVal),
             ("status", (create_task_status g n1 "submitted" none).1),
             ("artifacts", .arr []), ("history", .arr []), ("metadata", .obj [])],
       n1 + 1) := by
  cases cid with
  | none => exact ⟨.str (g.ids (n + 1)), n + 2, rfl⟩
  | some v =>
    by_cases ht : truthy v = true
    · refine ⟨v, n + 1, ?_⟩
      simp [create_task, ht, create_task_status]
    · refine ⟨.str (g.ids (n + 1)), n + 2, ?_⟩
      simp [create_task, Bool.eq_false_iff.mpr ht, create_task_status]

theorem mem_dictSet (k : String) (t : JVal) : ∀ store : TaskStore,
    ∀ k' t', (k', t') ∈ dictSet store k t → (k' = k ∧ t' = t) ∨ (k', t') ∈ store := by
  intro store
  induction store with
  | nil =>
    intro k' t' h
    simp only [dictSet, List.mem_singleton] at h
    exact .inl (Prod.mk.injEq _ _ _ _ ▸ h)
  | cons kv rest ih =>
    intro k' t' h
    obtain ⟨k0, t0⟩ := kv
    rw [dictSet] at h
    by_cases hk : k0 = k
    · rw [if_pos hk] at h
      rcases List.mem_cons.mp h with heq | hmem
      · exact .inl ⟨(Prod.mk.injEq _ _ _ _ ▸ heq).1.trans hk, (Prod.mk.injEq _ _ _ _ ▸ heq).2⟩
      · exact .inr (List.mem_cons_of_mem _ hmem)
    · rw [if_neg hk] at h
      rcases List.mem_cons.mp h with heq | hmem
      · exact .inr (heq ▸ List.mem_cons_self _ _)
      · rcases ih k' t' hmem with h1 | h1
        · exact .inl h1
        · exact .inr (List.mem_cons_of_mem _ h1)

theorem dictSet_dictSet (k : String) (a b : JVal) : ∀ s : TaskStore,
    dictSet (dictSet s k a) k b = dictSet s k b := by
  intro s
  induction s with
  | nil => simp [dictSet]
  | cons kv rest ih =>
    obtain ⟨k0, v0⟩ := kv
    by_cases h : k0 = k
    · simp [dictSet, h]
    · simp [dictSet, h, ih]

/-- A successful `try` block always produces the COMPLETED status. -/
theorem runTry_ok_state (g : GenEnv) (n : Nat) (collab : Collab) (params : JVal)
    (a st : JVal) (n2 : Nat) (h : runTry g n collab params = .ok (a, st, n2)) :
    st.lookup "state" = some (.str "completed") := by
  simp only [runTry] at h
  cases h1 : pyGetD params "start_date" (.str "") with
  | error e =>
    simp only [h1, Except.mapError, bind_err_eq] at h
    exact absurd h (by simp)
  | ok sd =>
    simp only [h1, Except.mapError, bind_ok_eq] at h
    cases h2 : pyGetD params "end_date" (.str "") with
    | error e =>
      simp only [h2, Except.mapError, bind_err_eq] at h
      exact absurd h (by simp)
    | ok ed =>
      simp only [h2, Except.mapError, bind_ok_eq] at h
      cases h3 : pyGetD params "calendars" (.arr []) with
      | error e =>
        simp only [h3, Except.mapError, bind_err_eq] at h
        exact absurd h (by simp)
      | ok cals =>
        simp only [h3, Except.mapError, bind_ok_eq] at h
        cases h4 : collab sd ed cals with
        | error e =>
          simp only [h4, bind_err_eq] at h
          exact absurd h (by simp)
        | ok res =>
          simp only [h4, bind_ok_eq] at h
          cases h5 : pyGet params "start_date" with
          | error e =>
            simp only [h5, Except.mapError, bind_err_eq] at h
            exact absurd h (by simp)
          | ok dsd =>
            simp only [h5, Except.mapError, bind_ok_eq] at h
            cases h6 : pyGet params "end_date" with
            | error e =>
              simp only [h6, Except.mapError, bind_err_eq] at h
              exact absurd h (by simp)
            | ok ded =>
              simp only [h6, Except.mapError, bind_ok_eq] at h
              simp only [create_artifact, create_message, create_task_status, data_part,
                text_part, pure, Except.pure, truthy] at h
              simp only [Except.ok.injEq, Prod.mk.injEq] at h
              obtain ⟨h1', h2', h3'⟩ := h
              rw [← h2']
              rfl

/-- One valid send-message request fully run through the handler: a 200
response carrying a task that is stored under its own freshly drawn id,
whose history is exactly the inbound message, and whose final state is
FAILED (no action parameters, or an exception in the try block) or
COMPLETED (collaborator success, exactly one artifact). -/
theorem server_send_message_run (g : GenEnv) (collab : Collab) (store : TaskStore) (n : Nat)
    (incoming msg : JVal) (d : String)
    (hv : validate_send_message_request incoming = .ok (true, d))
    (hmsg : incoming.lookup "message" = some msg) :
    ∃ task n2,
      server_send_message g collab store n incoming =
        .ok (.obj [("task", task)], 200, dictSet store (taskKey task) task, n2) ∧
      task.lookup "id" = some (.str (g.ids n)) ∧
      taskKey task = g.ids n ∧
      task.lookup "history" = some (.arr [msg]) ∧
      ((task.lookup "status").bind (fun st => st.lookup "state") = some (.str "failed") ∨
        (task.lookup "status").bind (fun st => st.lookup "state") = some (.str "completed")) ∧
      (_extract_params msg = .ok none →
        (task.lookup "status").bind (fun st => st.lookup "state") = some (.str "failed") ∧
        task.lookup "artifacts" = some (.arr [])) ∧
      (∀ ps res, _extract_params msg = .ok (some (.obj ps)) →
        collab ((assocLookup ps "start_date").getD (.str ""))
               ((assocLookup ps "end_date").getD (.str ""))
               ((assocLookup ps "calendars").getD (.arr [])) = .ok res →
        (task.lookup "status").bind (fun st => st.lookup "state") = some (.str "completed") ∧
        ∃ af, task.lookup "artifacts" = some (.arr [af])) := by
  obtain ⟨msg0, hl0, ht0, hvm⟩ := validate_smr_shape incoming d hv
  rw [hmsg] at hl0
  obtain rfl := Option.some.inj hl0
  obtain ⟨mfields, parts, hmo, hparts, hpobj⟩ := validate_message_shape msg d hvm
  subst hmo
  obtain ⟨ifields, rfl⟩ : ∃ f, incoming = .obj f := by
    cases incoming with
    | obj f => exact ⟨f, rfl⟩
    | null => simp [JVal.lookup] at hmsg
    | bool b => simp [JVal.lookup] at hmsg
    | num m => simp [JVal.lookup] at hmsg
    | str s => simp [JVal.lookup] at hmsg
    | arr items => simp [JVal.lookup] at hmsg
  have hif : assocLookup ifields "message" = some (.obj mfields) := hmsg
  obtain ⟨o, hext⟩ : ∃ o, _extract_params (JVal.obj mfields) = .ok o := by
    obtain ⟨o, ho⟩ := extractFromParts_total parts hpobj
    refine ⟨o, ?_⟩
    simp [_extract_params, pyGetD, pyGet, JVal.lookup, hparts, bind_ok_eq, pyIterate, ho]
  obtain ⟨ctxVal, n1, hct⟩ := create_task_parts g n (assocLookup mfields "context_id")
  simp only [server_send_message, hv, bind_ok_eq, Bool.not_true, Bool.false_eq_true, if_false,
    pyIndex, hif, pyGet, hct, hext, jvalSet, taskKey, JVal.lookup, create_message,
    create_task_status, text_part, truthy, dictSet_dictSet]
  cases o with
  | none =>
    dsimp only
    refine ⟨_, _, rfl, rfl, rfl, rfl, .inl rfl, fun _ => ⟨rfl, rfl⟩, ?_⟩
    intro ps res hx _
    simp at hx
  | some params =>
    dsimp only
    rcases hrtE : runTry g (n1 + 1 + 1 + 1) collab params with e | ⟨af, stc, n3⟩
    · refine ⟨_, _, rfl, rfl, rfl, rfl, .inl rfl, ?_, ?_⟩
      · intro hx
        simp at hx
      · intro ps res hx hcol
        simp only [Except.ok.injEq, Option.some.injEq] at hx
        subst hx
        simp [runTry, pyGetD, pyGet, JVal.lookup, bind_ok_eq, Except.mapError, hcol,
          pure, Except.pure] at hrtE
    · have hstc := runTry_ok_state g (n1 + 1 + 1 + 1) collab params af stc n3 hrtE
      refine ⟨_, _, rfl, rfl, rfl, rfl, .inr ?_, ?_, ?_⟩
      · exact hstc
      · intro hx
        simp at hx
      · intro ps res hx hcol
        exact ⟨hstc, af, rfl⟩

/-- C1 counterexample: a structurally valid request whose data part has both
`action` and `parameters` keys but a non-dict `parameters` value (`5`), run
against a collaborator that always returns without raising: the claim
predicts a COMPLETED task with one artifact, but the handler's try block
raises on `params.get` and the task ends FAILED with no artifacts. -/
theorem C1_counterexample :
    validate_send_message_request (.obj [("message", badParamsMsg)]) = .ok (true, "") ∧
    _extract_params badParamsMsg = .ok (some (.num 5)) ∧
    (server_send_message gDemo alwaysOkCollab [] 0
        (.obj [("message", badParamsMsg)])).toOption.map
      (fun out => ((out.1.lookup "task").bind (fun t => (t.lookup "status").bind
          (fun st => st.lookup "state")),
        (out.1.lookup "task").bind (fun t => t.lookup "artifacts"))) =
      some (some (.str "failed"), some (.arr [])) := ⟨rfl, rfl, rfl⟩

/-- C1 (amended): for a structurally valid SendMessageRequest: if the
message has a data part carrying `action` and `parameters` keys with a
dict-valued `parameters`, and the domain collaborator returns without
raising, the returned task is COMPLETED, its history holds exactly the
inbound message, and its artifacts list has length exactly one; if the
message has no such data part, the returned task is FAILED with an empty
artifacts list. -/
theorem C1_lifecycle (g : GenEnv) (collab : Collab) (store : TaskStore) (n : Nat)
    (incoming msg : JVal) (d : String)
    (hv : validate_send_message_request incoming = .ok (true, d))
    (hmsg : incoming.lookup "message" = some msg) :
    (∀ ps res, _extract_params msg = .ok (some (.obj ps)) →
      collab ((assocLookup ps "start_date").getD (.str ""))
             ((assocLookup ps "end_date").getD (.str ""))
             ((assocLookup ps "calendars").getD (.arr [])) = .ok res →
      ∃ task n2,
        server_send_message g collab store n incoming =
          .ok (.obj [("task", task)], 200, dictSet store (taskKey task) task, n2) ∧
        (task.lookup "status").bind (fun st => st.lookup "state") = some (.str "completed") ∧
        task.lookup "history" = some (.arr [msg]) ∧
        ∃ af, task.lookup "artifacts" = some (.arr [af])) ∧
    (_extract_params msg = .ok none →
      ∃ task n2,
        server_send_message g collab store n incoming =
          .ok (.obj [("task", task)], 200, dictSet store (taskKey task) task, n2) ∧
        (task.lookup "status").bind (fun st => st.lookup "state") = some (.str "failed") ∧
        task.lookup "history" = some (.arr [msg]) ∧
        task.lookup "artifacts" = some (.arr [])) := by
  obtain ⟨task, n2, heq, hid, hkey, hhist, hstate, hnone, hsome⟩ :=
    server_send_message_run g collab store n incoming msg d hv hmsg
  constructor
  · intro ps res hx hcol
    obtain ⟨hcomp, af, haf⟩ := hsome ps res hx hcol
    exact ⟨task, n2, heq, hcomp, hhist, af, haf⟩
  · intro hx
    obtain ⟨hfail, hart⟩ := hnone hx
    exact ⟨task, n2, heq, hfail, hhist, hart⟩

/-- C1 witness: the orchestrator-style request with dict parameters and an
always-returning collaborator yields the COMPLETED single-artifact task. -/
theorem C1_witness :
    ∃ task n2,
      server_send_message gDemo alwaysOkCollab [] 0 (.obj [("message", goodMsg)]) =
        .ok (.obj [("task", task)], 200, dictSet [] (taskKey task) task, n2) ∧
      (task.lookup "status").bind (fun st => st.lookup "state") = some (.str "completed") ∧
      task.lookup "history" = some (.arr [goodMsg]) ∧
      ∃ af, task.lookup "artifacts" = some (.arr [af]) :=
  (C1_lifecycle gDemo alwaysOkCollab [] 0 (.obj [("message", goodMsg)]) goodMsg "" rfl rfl).1
    [("start_date", .str "2025-02-17"), ("end_date", .str "2025-02-23"),
     ("calendars", .arr [])]
    demoFetch rfl rfl

/-- C9: after each valid send-message request the store invariant holds
(every task keyed by its own id, non-empty history starting with the
inbound message, state from the TaskState enum); get-task returns a stored
task verbatim with 200 and an unknown id gives a 404 TaskNotFoundError,
leaving the store unmodified. -/
theorem C9_store_invariant (g : GenEnv) (collab : Collab) (store : TaskStore) (n : Nat)
    (incoming msg : JVal) (d : String)
    (hv : validate_send_message_request incoming = .ok (true, d))
    (hmsg : incoming.lookup "message" = some msg)
    (hInv : StoreInv store) :
    (∃ task n2,
      server_send_message g collab store n incoming =
        .ok (.obj [("task", task)], 200, dictSet store (taskKey task) task, n2) ∧
      StoreInv (dictSet store (taskKey task) task) ∧
      task.lookup "history" = some (.arr [msg])) ∧
    (∀ (s : TaskStore) (tid : String),
      (∀ t, assocLookup s tid = some t → server_get_task s tid = ((t, 200), s)) ∧
      (assocLookup s tid = none →
        server_get_task s tid =
          ((errorDict "TaskNotFoundError" ("Task " ++ tid ++ " not found"), 404), s))) := by
  constructor
  · obtain ⟨task, n2, heq, hid, hkey, hhist, hstate, hnone, hsome⟩ :=
      server_send_message_run g collab store n incoming msg d hv hmsg
    refine ⟨task, n2, heq, ?_, hhist⟩
    intro k t hmem
    rcases mem_dictSet (taskKey task) task store k t hmem with ⟨rfl, rfl⟩ | hmem2
    · refine ⟨?_, ⟨msg, [], hhist⟩, ?_⟩
      · rw [hkey]
        exact hid
      · rcases hstate with hs | hs
        · exact ⟨"failed", hs, by simp [taskStates]⟩
        · exact ⟨"completed", hs, by simp [taskStates]⟩
    · exact hInv k t hmem2
  · intro s tid
    constructor
    · intro t ht
      simp [server_get_task, ht]
    · intro ht
      simp [server_get_task, ht]

/-- C9 witness: a no-parameters request against the empty store. -/
theorem C9_witness :
    ∃ task n2,
      server_send_message gDemo alwaysOkCollab [] 0 (.obj [("message", textOnlyMsg)]) =
        .ok (.obj [("task", task)], 200, dictSet [] (taskKey task) task, n2) ∧
      StoreInv (dictSet [] (taskKey task) task) ∧
      task.lookup "history" = some (.arr [textOnlyMsg]) :=
  (C9_store_invariant gDemo alwaysOkCollab [] 0 (.obj [("message", textOnlyMsg)]) textOnlyMsg ""
    rfl rfl (fun k t h => absurd h (List.not_mem_nil _))).1

/-! ### C5: the orchestrator's non-fatal Telegram step -/

/-- C5: when the calendar and formatter steps both succeed, a discovered
Telegram skill whose delivery fails still lets the workflow write the
summary file and return the full result bundle with `telegram_sent=false`;
with no Telegram skill discovered, no Telegram request is attempted and the
result also carries `telegram_sent=false`. -/
theorem C5_telegram_nonfatal (cards : List JVal) (calResp fmtResp tgResp : JVal)
    (ws we savedPath : String) (sm : SkillMap) (cr fr : JVal)
    (evs cfl tot bus summary : JVal) (L : Nat)
    (hsm : discover_skill_map cards = .ok sm)
    (hcal : skillMapMem sm "fetch_week_events" = true)
    (hfmt : skillMapMem sm "format_weekly_preview" = true)
    (hcr : parse_calendar_response calResp = .ok cr)
    (hcrE : pyIn "error" cr = .ok false)
    (hev : pyIndex cr "events" = .ok evs)
    (hcf : pyIndex cr "conflicts" = .ok cfl)
    (htot : pyIndex cr "total_events" = .ok tot)
    (hbus : pyIndex cr "busiest_day" = .ok bus)
    (hL : pyLen cfl = .ok L)
    (hfr : parse_formatter_response fmtResp = .ok fr)
    (hfrE : pyIn "error" fr = .ok false)
    (hsum : pyIndex fr "formatted_summary" = .ok summary) :
    (∀ tr, skillMapMem sm "send_telegram_message" = true →
      parse_telegram_response tgResp = .ok tr →
      pyIn "error" tr = .ok true →
      generate_weekly_preview cards calResp fmtResp tgResp (ws, we) savedPath =
        .ok ⟨.obj [("summary", summary), ("file_path", .str savedPath),
              ("week_start", .str ws), ("week_end", .str we),
              ("total_events", tot), ("telegram_sent", .bool false)], true, true⟩) ∧
    (skillMapMem sm "send_telegram_message" = false →
      generate_weekly_preview cards calResp fmtResp tgResp (ws, we) savedPath =
        .ok ⟨.obj [("summary", summary), ("file_path", .str savedPath),
              ("week_start", .str ws), ("week_end", .str we),
              ("total_events", tot), ("telegram_sent", .bool false)], false, true⟩) := by
  constructor
  · intro tr hmem htg htgE
    simp only [generate_weekly_preview, hsm, bind_ok_eq, hcal, hfmt, Bool.not_true,
      Bool.false_eq_true, if_false, hcr, hcrE, hev, hcf, htot, hbus, hL, hfr, hfrE, hsum,
      hmem, htg, htgE, if_true, Bool.not_false, pure, Except.pure]
  · intro hmem
    simp only [generate_weekly_preview, hsm, bind_ok_eq, hcal, hfmt, Bool.not_true,
      Bool.false_eq_true, if_false, hcr, hcrE, hev, hcf, htot, hbus, hL, hfr, hfrE, hsum,
      hmem, pure, Except.pure]

/-- C5 witness: one card advertising both mandatory skills (no Telegram
skill), completed calendar and formatter responses: the bundle is returned
with `telegram_sent=false`, the file written and no Telegram attempt. -/
theorem C5_witness :
    generate_weekly_preview [cardBoth] calRespW fmtRespW .null ("2025-02-17", "2025-02-23")
        "output/summaries/2025-02-17.md" =
      .ok ⟨.obj [("summary", .str "Preview"),
            ("file_path", .str "output/summaries/2025-02-17.md"),
            ("week_start", .str "2025-02-17"), ("week_end", .str "2025-02-23"),
            ("total_events", .num 0), ("telegram_sent", .bool false)], false, true⟩ :=
  (C5_telegram_nonfatal [cardBoth] calRespW fmtRespW .null "2025-02-17" "2025-02-23"
    "output/summaries/2025-02-17.md"
    [(.str "fetch_week_events", cardBoth), (.str "format_weekly_preview", cardBoth)]
    calDataW (.obj [("formatted_summary", .str "Preview")])
    (.arr []) (.arr []) (.num 0) (.str "") (.str "Preview") 0
    rfl rfl rfl rfl rfl rfl rfl rfl rfl rfl rfl rfl rfl).2 rfl

/-! ### C2: conflict detection -/

theorem charListLt_irrefl : ∀ l : List Char, charListLt l l = false := by
  intro l
  induction l with
  | nil => rfl
  | cons a t ih => simp [charListLt, ih]

theorem charListLt_trans : ∀ a b c : List Char,
    charListLt a b = true → charListLt b c = true → charListLt a c = true := by
  intro a
  induction a with
  | nil =>
    intro b c hab hbc
    cases b with
    | nil => simp [charListLt] at hab
    | cons y ys =>
      cases c with
      | nil => simp [charListLt] at hbc
      | cons z zs => rfl
  | cons x xs ih =>
    intro b c hab hbc
    cases b with
    | nil => simp [charListLt] at hab
    | cons y ys =>
      cases c with
      | nil => simp [charListLt] at hbc
      | cons z zs =>
        simp only [charListLt] at hab hbc ⊢
        by_cases hxy : x.toNat < y.toNat
        · by_cases hyz : y.toNat < z.toNat
          · rw [if_pos (by omega)]
          · by_cases hzy : z.toNat < y.toNat
            · rw [if_neg hyz, if_pos hzy] at hbc
              exact absurd hbc (by simp)
            · rw [if_pos (by omega)]
        · by_cases hyx : y.toNat < x.toNat
          · rw [if_neg hxy, if_pos hyx] at hab
            exact absurd hab (by simp)
          · rw [if_neg hxy, if_neg hyx] at hab
            by_cases hyz : y.toNat < z.toNat
            · rw [if_pos (by omega)]
            · by_cases hzy : z.toNat < y.toNat
              · rw [if_neg hyz, if_pos hzy] at hbc
                exact absurd hbc (by simp)
              · rw [if_neg hyz, if_neg hzy] at hbc
                rw [if_neg (by omega), if_neg (by omega)]
                exact ih ys zs hab hbc

theorem pyStrLt_trans (a b c : String) (h1 : pyStrLt a b = true)
    (h2 : pyStrLt b c = true) : pyStrLt a c = true :=
  charListLt_trans a.data b.data c.data h1 h2

theorem pyStrLt_ne (a b : String) (h : pyStrLt a b = true) : a ≠ b := by
  rintro rfl
  rw [pyStrLt, charListLt_irrefl] at h
  exact Bool.false_ne_true h

/-- The relation the chronological sort guarantees on the `date` fields. -/
theorem eventsSorted_dates (events : List Event) (h : eventsSorted events) :
    events.Pairwise (fun x y => pyStrLt x.date y.date = true ∨ x.date = y.date) := by
  refine h.imp ?_
  intro a b hab
  unfold keyLE at hab
  rcases Bool.or_eq_true_iff.mp hab with h1 | h1
  · exact .inl h1
  · exact .inr (eq_of_beq (Bool.and_eq_true_iff.mp h1).1)

theorem innerScan_eq (ev1 : Event) : ∀ l : List Event,
    (∀ e ∈ l, pyStrLt ev1.date e.date = true ∨ ev1.date = e.date) →
    l.Pairwise (fun x y => pyStrLt x.date y.date = true ∨ x.date = y.date) →
    innerScan ev1 l = (l.filter (conflictCond ev1)).map (mkConflict ev1) := by
  intro l
  induction l with
  | nil => intro _ _; rfl
  | cons ev2 rest ih =>
    intro hd hp
    rw [List.pairwise_cons] at hp
    by_cases hdate : ev1.date = ev2.date
    · have hdrest : ∀ e ∈ rest, pyStrLt ev1.date e.date = true ∨ ev1.date = e.date := by
        intro e he
        rcases hp.1 e he with h1 | h1
        · exact .inl (hdate ▸ h1)
        · exact .inr (hdate ▸ h1)
      rw [innerScan]
      rw [if_neg (fun hne => hne hdate)]
      rw [List.filter_cons]
      by_cases hsrc : ev1.calendar_source = ev2.calendar_source
      · by_cases hov : _times_overlap ev1 ev2 = true
        · have hcond : conflictCond ev1 ev2 = true := by
            simp [conflictCond, hdate, hsrc, hov]
          rw [if_neg (fun hne => hne hsrc), if_pos hov, if_pos hcond,
            List.map_cons, ih hdrest hp.2]
        · have hovf : _times_overlap ev1 ev2 = false := Bool.eq_false_iff.mpr hov
          have hcond : conflictCond ev1 ev2 = false := by
            simp [conflictCond, hovf]
          rw [if_neg (fun hne => hne hsrc), if_neg hov, if_neg (by simp [hcond]),
            ih hdrest hp.2]
      · have hcond : conflictCond ev1 ev2 = false := by
          simp only [conflictCond, Bool.and_eq_false_iff]
          left
          right
          exact beq_eq_false_iff_ne.mpr hsrc
        rw [if_pos hsrc, if_neg (by simp [hcond]), ih hdrest hp.2]
    · have hlt : pyStrLt ev1.date ev2.date = true :=
        (hd ev2 (List.mem_cons_self _ _)).resolve_right hdate
      rw [innerScan, if_pos hdate]
      have hnone : ∀ a ∈ ev2 :: rest, ¬conflictCond ev1 a = true := by
        intro a ha
        have hne : ev1.date ≠ a.date := by
          rcases List.mem_cons.mp ha with rfl | ha
          · exact hdate
          · rcases hp.1 a ha with h1 | h1
            · exact pyStrLt_ne _ _ (pyStrLt_trans _ _ _ hlt h1)
            · exact h1 ▸ pyStrLt_ne _ _ hlt
        simp [conflictCond, beq_eq_false_iff_ne.mpr hne]
      rw [List.filter_eq_nil_iff.mpr hnone]
      rfl

theorem outerScan_eq : ∀ l : List Event,
    l.Pairwise (fun x y => pyStrLt x.date y.date = true ∨ x.date = y.date) →
    outerScan l = pairScan l := by
  intro l
  induction l with
  | nil => intro _; rfl
  | cons e rest ih =>
    intro hp
    rw [List.pairwise_cons] at hp
    rw [outerScan, pairScan, innerScan_eq e rest hp.1 hp.2, ih hp.2]

/-- C2: on chronologically sorted input, `_detect_conflicts` reports a
conflict exactly for the ordered pairs of timed (non-all-day) events on the
same date and calendar source whose `[start, start+duration)` blocks
intersect; when both times parse, `_times_overlap` is exactly interval
intersection; and the spec's four concrete scenarios behave as claimed
(one conflict naming both titles; differing sources, all-day marking, or
adjacency give zero conflicts). -/
theorem C2_conflicts (events : List Event) (h : eventsSorted events) :
    _detect_conflicts events = detectConflictsSpec events ∧
    (∀ a b : Event, ∀ s1 s2 : Nat,
      parseTime12 a.time = some s1 → parseTime12 b.time = some s2 →
      (_times_overlap a b = true ↔
        ((s1 : Int) < (s2 : Int) + _parse_duration_minutes b.duration ∧
         (s2 : Int) < (s1 : Int) + _parse_duration_minutes a.duration))) ∧
    _detect_conflicts [evA, evB] =
      [{ time := "Monday 2:00 PM", events := ["Meeting A", "Meeting B"],
         calendar_source := "You" }] ∧
    _detect_conflicts [evA, evBOther] = [] ∧
    _detect_conflicts [evAAllDay, evB] = [] ∧
    _detect_conflicts [evBAllDay, evA] = [] ∧
    _detect_conflicts [ev9, ev10] = [] := by
  refine ⟨?_, ?_, by decide, by decide, by decide, by decide, by decide⟩
  · unfold _detect_conflicts detectConflictsSpec
    exact outerScan_eq _ (List.Pairwise.filter _ (eventsSorted_dates events h))
  · intro a b s1 s2 h1 h2
    rw [_times_overlap, h1, h2]
    simp [Bool.and_eq_true, decide_eq_true_eq]

/-- C2 witness: the overlapping same-source pair is sorted, and on it the
break-scan agrees with the pairwise spec. -/
theorem C2_witness :
    eventsSorted [evA, evB] ∧
    _detect_conflicts [evA, evB] = detectConflictsSpec [evA, evB] :=
  ⟨by unfold eventsSorted; decide, (C2_conflicts [evA, evB] (by unfold eventsSorted; decide)).1⟩

/-- C8 witness: the spec's example list and the empty list. -/
theorem C8_witness :
    c8events ≠ [] ∧ ∃ e ∈ c8events, e.day = _find_busiest_day c8events :=
  ⟨by decide, ((C8_busiest_day c8events).2 (by decide)).1⟩

end WeeklyPreview
